import Mathlib

/-!
# Verification of the PEG stock-valuation microservice

Shallow embedding of `src/lib/valuation.js` and the batch endpoint of
`src/app.js` (Gearwheel-microservice).

Modelling conventions:

* A JavaScript number is `JsNum`: `NaN`, `±Infinity`, or a finite value.
  Finite values are modelled as exact rationals (`ℚ`); binary-float rounding
  is idealised away, which is sound for the control-flow and formula-shape
  properties proved here.  JS `-0` is identified with `0` (they are `==`,
  both falsy, and compare equally).
* JSON fields that may be absent (`undefined`) are `Option` fields; a field
  that is present carries the `parseFloat` of its raw value.  Providers
  (Finnhub / Alpha Vantage) send numbers in the fields the code reads, so
  JS truthiness of a raw field is the truthiness of its numeric value
  (`0` and `NaN` falsy).
* Each network fetch is an input of type `Except String α`: `.error msg`
  models `fetchFinnhub` / `fetchAlphaVantage` throwing with message `msg`
  (already wrapped by those helpers), `.ok` carries the decoded payload.
* `async`/`await` with `try`/`catch` becomes explicit `Except` plumbing:
  the embedded functions return exactly what the JS functions resolve or
  reject with.
-/

deriving instance DecidableEq for Except

/-- A JavaScript number: `NaN`, `Infinity`, `-Infinity`, or a finite value
(idealised as an exact rational). -/
inductive JsNum where
  | nan : JsNum
  | inf : JsNum
  | ninf : JsNum
  | num : ℚ → JsNum
deriving DecidableEq, Repr

namespace JsNum

/-- `Number.isFinite`. -/
def isFinite : JsNum → Bool
  | num _ => true
  | _ => false

/-- JS truthiness of a number: `0` and `NaN` are falsy, everything else
(including `±Infinity`) is truthy. -/
def truthy : JsNum → Bool
  | nan => false
  | num q => q ≠ 0
  | _ => true

/-- JS `<=` on numbers: any comparison involving `NaN` is `false`. -/
def le : JsNum → JsNum → Bool
  | nan, _ => false
  | _, nan => false
  | ninf, _ => true
  | _, inf => true
  | inf, _ => false
  | _, ninf => false
  | num a, num b => a ≤ b

/-- JS `<` on numbers: any comparison involving `NaN` is `false`. -/
def lt : JsNum → JsNum → Bool
  | nan, _ => false
  | _, nan => false
  | ninf, ninf => false
  | ninf, _ => true
  | _, ninf => false
  | inf, _ => false
  | _, inf => true
  | num a, num b => a < b

/-- JS addition. -/
def add : JsNum → JsNum → JsNum
  | nan, _ => nan
  | _, nan => nan
  | inf, ninf => nan
  | ninf, inf => nan
  | inf, _ => inf
  | _, inf => inf
  | ninf, _ => ninf
  | _, ninf => ninf
  | num a, num b => num (a + b)

/-- JS unary negation. -/
def neg : JsNum → JsNum
  | nan => nan
  | inf => ninf
  | ninf => inf
  | num a => num (-a)

/-- JS subtraction. -/
def sub (a b : JsNum) : JsNum := a.add b.neg

/-- JS multiplication. -/
def mul : JsNum → JsNum → JsNum
  | nan, _ => nan
  | _, nan => nan
  | inf, inf => inf
  | inf, ninf => ninf
  | ninf, inf => ninf
  | ninf, ninf => inf
  | inf, num b => if b = 0 then nan else if 0 < b then inf else ninf
  | num a, inf => if a = 0 then nan else if 0 < a then inf else ninf
  | ninf, num b => if b = 0 then nan else if 0 < b then ninf else inf
  | num a, ninf => if a = 0 then nan else if 0 < a then ninf else inf
  | num a, num b => num (a * b)

/-- JS division (with `x / ±0` giving `±Infinity` or `NaN`, and
`finite / ±Infinity` giving `0`). -/
def div : JsNum → JsNum → JsNum
  | nan, _ => nan
  | _, nan => nan
  | inf, inf => nan
  | inf, ninf => nan
  | ninf, inf => nan
  | ninf, ninf => nan
  | inf, num b => if 0 ≤ b then inf else ninf
  | ninf, num b => if 0 ≤ b then ninf else inf
  | num _, inf => num 0
  | num _, ninf => num 0
  | num a, num b =>
      if b = 0 then (if a = 0 then nan else if 0 < a then inf else ninf)
      else num (a / b)

end JsNum

/-- JS `ToNumber` on a possibly-`null` number: `null` coerces to `0` in
arithmetic and comparisons. -/
def jsToNum : Option JsNum → JsNum
  | none => JsNum.num 0
  | some v => v

/-- `Number.isFinite` applied to a possibly-`null` value (`Number.isFinite(null)`
is `false`: `null` is not a number). -/
def isFiniteO : Option JsNum → Bool
  | none => false
  | some v => v.isFinite

/-- JS truthiness of a possibly-`null` number (`null` is falsy). -/
def optTruthy : Option JsNum → Bool
  | none => false
  | some v => v.truthy

/-- Whether the first character list is a prefix of the second. -/
def isPrefixOfList : List Char → List Char → Bool
  | [], _ => true
  | _ :: _, [] => false
  | c :: cs, d :: ds => c == d && isPrefixOfList cs ds

/-- Whether `sub` occurs (contiguously) inside `l`. -/
def listContains (sub : List Char) : List Char → Bool
  | [] => isPrefixOfList sub []
  | c :: rest => isPrefixOfList sub (c :: rest) || listContains sub rest

/-- JS `String.prototype.includes`: substring occurrence test. -/
def jsIncludes (s sub : String) : Bool := listContains sub.data s.data

/-! ## Provider payloads (decoded JSON, at the granularity the code reads) -/

/-- The `metric` object of a Finnhub `/stock/metric` response, restricted to
the fields `getStockData` reads.  `some v` means the field is present and
`parseFloat` of it is `v`. -/
structure Metrics where
  peTTM : Option JsNum
  peExclExtraTTM : Option JsNum
  peAnnual : Option JsNum
  epsTTM : Option JsNum
  epsExclExtraItemsTTM : Option JsNum
  epsAnnual : Option JsNum
  beta : Option JsNum
deriving DecidableEq, Repr

/-- The `report.ic` object of a reported filing: `netIncomeLoss` is the
`NetIncomeLoss` field (absent or its numeric value). -/
structure IcObj where
  netIncomeLoss : Option JsNum
deriving DecidableEq, Repr

/-- The `report` object of a reported filing: `ic` is absent or the income
statement object. -/
structure FilingReport where
  ic : Option IcObj
deriving DecidableEq, Repr

/-- The first element of the `data` array of a `/stock/financials-reported`
response. -/
structure Filing where
  report : Option FilingReport
deriving DecidableEq, Repr

/-- The observable behaviour of the Finnhub endpoints consulted by
`getStockData` for one symbol.  `.error msg` models `fetchFinnhub`
throwing with message `msg`.

* `quoteResp`: `parseFloat(quoteData.c)` of the quote response
  (an absent `c` parses to `NaN`).
* `metricsResp`: the `metric` object, or `none` when absent.
* `financialsResp`: `data[0]` when the `data` array is present and
  non-empty, otherwise `none`. -/
structure StockDataEnv where
  quoteResp : Except String JsNum
  metricsResp : Except String (Option Metrics)
  financialsResp : Except String (Option Filing)
deriving DecidableEq, Repr

/-- The value `getStockData` resolves with. -/
structure StockData where
  beta : JsNum
  actualEps : Option JsNum
  estimatedEps : Option JsNum
  price : JsNum
  pe : Option JsNum
  warnings : List String
deriving DecidableEq, Repr

/-- Result of processing the metrics block of `getStockData`:
the extracted `pe`, `actualEps`, `beta` and any warnings. -/
structure MetricsOut where
  pe : Option JsNum
  actualEps : Option JsNum
  beta : Option JsNum
  warnings : List String
deriving DecidableEq, Repr

/-- The metrics-extraction block of `getStockData`
(`src/lib/valuation.js`, lines 95–132), for a successfully fetched
response whose `metric` object is `m`. -/
def processMetrics (m : Metrics) : MetricsOut :=
  -- Extract PE ratio (first of peTTM, peExclExtraTTM, peAnnual present)
  let pe : Option JsNum :=
    match m.peTTM with
    | some v => some v
    | none =>
      match m.peExclExtraTTM with
      | some v => some v
      | none => m.peAnnual
  -- Extract EPS TTM (first of epsTTM, epsExclExtraItemsTTM, epsAnnual present)
  let actualEps : Option JsNum :=
    match m.epsTTM with
    | some v => some v
    | none =>
      match m.epsExclExtraItemsTTM with
      | some v => some v
      | none => m.epsAnnual
  -- if (Number.isFinite(pe) && pe <= 0) pe = null
  let pe : Option JsNum :=
    if (jsToNum pe).isFinite && (jsToNum pe).le (JsNum.num 0) then none else pe
  -- if (!Number.isFinite(actualEps)) actualEps = null
  let actualEps : Option JsNum :=
    if !(isFiniteO actualEps) then none else actualEps
  -- if (metrics.beta) { beta = parseFloat(metrics.beta); if invalid → null + warning }
  match m.beta with
  | some b =>
      if b.truthy then
        if !b.isFinite || b.lt (JsNum.num 0) then
          { pe := pe, actualEps := actualEps, beta := none
            warnings := ["Beta value was invalid; using fallback."] }
        else
          { pe := pe, actualEps := actualEps, beta := some b, warnings := [] }
      else
        { pe := pe, actualEps := actualEps, beta := none, warnings := [] }
  | none => { pe := pe, actualEps := actualEps, beta := none, warnings := [] }

/-- The net-income fallback of `getStockData` (lines 137–159), entered when
the metrics EPS is falsy.  Returns the updated `actualEps` and any warning. -/
def epsFallback (actualEps : Option JsNum) :
    Except String (Option Filing) → Option JsNum × List String
  | .error msg => (actualEps, ["Could not fetch financials: " ++ msg])
  | .ok none => (actualEps, [])
  | .ok (some filing) =>
      match filing.report with
      | none => (actualEps, [])
      | some rep =>
        match rep.ic with
        | none => (actualEps, [])
        | some ic =>
          match ic.netIncomeLoss with
          | none => (actualEps, [])
          | some v =>
              -- if (report.ic && report.ic.NetIncomeLoss) — truthiness of the field
              if v.truthy then
                -- if (Number.isFinite(netIncome) && netIncome !== 0)
                if v.isFinite && v ≠ JsNum.num 0 then
                  (some v,
                   ["Actual EPS derived from reported net income (not per share basis)."])
                else (actualEps, [])
              else (actualEps, [])

/-- The metrics fetch of `getStockData` (lines 90–135): a failed fetch
degrades into a warning, an absent `metric` object yields nothing, and a
present one is processed by the extraction block. -/
def getMetricsOut : Except String (Option Metrics) → MetricsOut
  | .error msg =>
      { pe := none, actualEps := none, beta := none
        warnings := ["Could not fetch metrics; some data may be unavailable: " ++ msg] }
  | .ok none => { pe := none, actualEps := none, beta := none, warnings := [] }
  | .ok (some metrics) => processMetrics metrics

/-- `getStockData(symbol, finnhubApiKey)` (lines 69–179).  Rejects (throws)
exactly when the quote fetch fails or the price is not a finite positive
number; every other failure degrades into warnings. -/
def getStockData (symbol : String) (env : StockDataEnv) : Except String StockData :=
  -- Fetch current price via quote endpoint
  match env.quoteResp with
  | .error msg =>
      .error ("Failed to get quote for " ++ symbol ++ ": " ++ msg)
  | .ok price =>
    if !price.isFinite || price.le (JsNum.num 0) then
      -- the `Invalid price` throw is itself caught and re-wrapped by line 86
      .error ("Failed to get quote for " ++ symbol ++
        ": Invalid price for " ++ symbol)
    else
      -- Fetch metrics (beta, PE, and other fundamentals)
      let m : MetricsOut := getMetricsOut env.metricsResp
      -- If there is no EPS from metrics, try financials endpoint
      let fe : Option JsNum × List String :=
        if !(optTruthy m.actualEps) then epsFallback m.actualEps env.financialsResp
        else (m.actualEps, [])
      -- Use default beta if not available
      let bw : JsNum × List String :=
        match m.beta with
        | none => (JsNum.num 1, ["Beta value unavailable; using default beta = 1.0"])
        | some b => (b, [])
      .ok { beta := bw.1
            actualEps := fe.1
            estimatedEps := none
            price := price
            pe := m.pe
            warnings := m.warnings ++ fe.2 ++ bw.2 }

/-- The value `getStockData` resolves with once the quote has parsed to a
finite positive price `q` (the else-branch of lines 90–178); related to
`getStockData` by `getStockData_ok_iff` below. -/
def stockDataOf (q : ℚ) (env : StockDataEnv) : StockData :=
  let m : MetricsOut := getMetricsOut env.metricsResp
  let fe : Option JsNum × List String :=
    if !(optTruthy m.actualEps) then epsFallback m.actualEps env.financialsResp
    else (m.actualEps, [])
  let bw : JsNum × List String :=
    match m.beta with
    | none => (JsNum.num 1, ["Beta value unavailable; using default beta = 1.0"])
    | some b => (b, [])
  { beta := bw.1
    actualEps := fe.1
    estimatedEps := none
    price := JsNum.num q
    pe := m.pe
    warnings := m.warnings ++ fe.2 ++ bw.2 }

/-! ## Alpha Vantage earnings estimates -/

/-- One record of the `estimates` array of an Alpha Vantage
`EARNINGS_ESTIMATES` response.  `date` is the raw `date` string when the
field is present; `eps_estimate_average` is `some v` when the raw field is
present and truthy, with `v` its `parseFloat` (a falsy raw field — absent,
empty string, `0` or `NaN` — is `none`; no falsy raw parses to a finite
positive number, so this loses nothing the code distinguishes). -/
structure AlphaEstimate where
  date : Option String
  eps_estimate_average : Option JsNum
deriving DecidableEq, Repr

/-- JS truthiness of a possibly-absent string (absent and `""` are falsy). -/
def strTruthy : Option String → Bool
  | none => false
  | some s => s ≠ ""

/-- The scan loop of `getEstimatedEpsFromAlphaVantage` (lines 197–204):
first record whose `date` and `eps_estimate_average` are truthy and whose
parsed estimate is finite and positive. -/
def findEstimate : List AlphaEstimate → Option (JsNum × String)
  | [] => none
  | e :: rest =>
      if strTruthy e.date then
        match e.eps_estimate_average with
        | some v =>
            if v.isFinite && (JsNum.num 0).lt v then
              some (v, e.date.getD "")
            else findEstimate rest
        | none => findEstimate rest
      else findEstimate rest

/-- `getEstimatedEpsFromAlphaVantage(symbol, apiKey)` (lines 190–211).
The input is the `fetchAlphaVantage` outcome: `.error` when the fetch threw,
`.ok` carries the `estimates` array when that field is present.  Returns
`some (eps, period)` or `none`; never throws. -/
def getEstimatedEpsFromAlphaVantage :
    Except String (Option (List AlphaEstimate)) → Option (JsNum × String)
  | .error _ => none
  | .ok none => none
  | .ok (some ests) =>
      if ests.length > 0 then findEstimate ests else none

/-! ## calculateStockValuation -/

/-- `calculatePeg(pe, growthRateDecimal)` (lines 182–187). -/
def calculatePeg (pe growthRateDecimal : JsNum) : Option JsNum :=
  if growthRateDecimal.le (JsNum.num 0) || !pe.isFinite || pe.le (JsNum.num 0) then
    none
  else some (pe.div (growthRateDecimal.mul (JsNum.num 100)))

/-- Parameters of `calculateStockValuation` after destructuring with
defaults (line 224–230).  `hasAlphaVantageKey` is the truthiness of
`alphaVantageApiKey`. -/
structure ValuationParams where
  symbol : String
  market : String
  marketGrowthRatePercent : JsNum
  hasAlphaVantageKey : Bool
deriving DecidableEq, Repr

/-- The external world one valuation observes: the Finnhub endpoints and
the Alpha Vantage estimates endpoint. -/
structure ValuationEnv where
  stock : StockDataEnv
  alpha : Except String (Option (List AlphaEstimate))
deriving DecidableEq, Repr

/-- The result object of `calculateStockValuation` (lines 232–260).
`none` models a `null` field.  `assumedMarketGrowthRatePercent` is
`assumptions.marketGrowthRatePercent`; the static `notes` strings are
omitted. -/
structure ValuationResult where
  symbol : String
  market : String
  marketPe : Option JsNum
  marketPeg : Option JsNum
  beta : Option JsNum
  actualEps : Option JsNum
  estimatedEps : Option JsNum
  stockPe : Option JsNum
  growthRate : Option JsNum
  stockPeg : Option JsNum
  currentPrice : Option JsNum
  fairValue : Option JsNum
  assumedMarketGrowthRatePercent : JsNum
  warnings : List String
  hasForwardEps : Bool
  betaFallbackUsed : Bool
  valuationPossible : Bool
deriving DecidableEq, Repr

/-- The freshly initialised result object (lines 232–260). -/
def initResult (p : ValuationParams) : ValuationResult :=
  { symbol := p.symbol
    market := p.market
    marketPe := none
    marketPeg := none
    beta := none
    actualEps := none
    estimatedEps := none
    stockPe := none
    growthRate := none
    stockPeg := none
    currentPrice := none
    fairValue := none
    assumedMarketGrowthRatePercent := p.marketGrowthRatePercent
    warnings := []
    hasForwardEps := false
    betaFallbackUsed := false
    valuationPossible := false }

/-- Steps 5–6 of `calculateStockValuation` (lines 317–334), entered with
`growthRate` and `stockPe` set. -/
def finishValuation (r : ValuationResult) : ValuationResult :=
  -- Step 5: if (growthRate <= 0 || stockPe <= 0) → warning, stop
  if (jsToNum r.growthRate).le (JsNum.num 0) || (jsToNum r.stockPe).le (JsNum.num 0) then
    { r with
      warnings := r.warnings ++
        ["Growth rate or PE is non-positive; PEG-based valuation not meaningful."]
      valuationPossible := false }
  else
    let r := { r with stockPeg := calculatePeg (jsToNum r.stockPe) (jsToNum r.growthRate) }
    if r.stockPeg = none || (jsToNum r.stockPeg).le (JsNum.num 0) then
      { r with
        warnings := r.warnings ++
          ["PEG calculation resulted in non-positive value; valuation not possible."]
        valuationPossible := false }
    else
      -- Step 6: fairValue = price * ((marketPeg + (beta - 1) * 0.7 * marketPeg) / stockPeg)
      { r with
        fairValue := some ((jsToNum r.currentPrice).mul
          (((jsToNum r.marketPeg).add
            ((((jsToNum r.beta).sub (JsNum.num 1)).mul (JsNum.num (7/10))).mul
              (jsToNum r.marketPeg))).div (jsToNum r.stockPeg)))
        valuationPossible := true }

/-- The result object just after Step 1 (lines 262–267, as shipped):
`result.marketPe = 29; result.marketPeg = 29 / 13.5` — the `getMarketPe`
call and the division by `marketGrowthRatePercent` are commented out in the
source. -/
def marketBase (p : ValuationParams) : ValuationResult :=
  { initResult p with
    marketPe := some (JsNum.num 29)
    marketPeg := some ((JsNum.num 29).div (JsNum.num (27/2))) }

/-- Step 2 (lines 269–275): copy the fetched stock data into the result. -/
def stepCopyStock (p : ValuationParams) (sd : StockData) : ValuationResult :=
  { marketBase p with
    beta := some sd.beta
    actualEps := sd.actualEps
    estimatedEps := sd.estimatedEps
    currentPrice := some sd.price
    warnings := (marketBase p).warnings ++ sd.warnings }

/-- Step 2b (lines 277–284): fill `estimatedEps` from Alpha Vantage when it
is missing and a key is configured. -/
def stepAlpha (p : ValuationParams)
    (alphaResp : Except String (Option (List AlphaEstimate)))
    (r : ValuationResult) : ValuationResult :=
  if !(isFiniteO r.estimatedEps) && p.hasAlphaVantageKey then
    match getEstimatedEpsFromAlphaVantage alphaResp with
    | some (eps, period) =>
        { r with
          estimatedEps := some eps
          warnings := r.warnings ++
            ["Estimated EPS from Alpha Vantage for period " ++ period] }
    | none => r
  else r

/-- `betaFallbackUsed` detection (lines 286–291), over the warnings of the
fetched stock data. -/
def stepBetaFlag (sd : StockData) (r : ValuationResult) : ValuationResult :=
  if (sd.beta ≠ JsNum.num 1 || sd.warnings.any (fun w => jsIncludes w "default")) &&
      sd.warnings.any (fun w => jsIncludes w "default beta") then
    { r with betaFallbackUsed := true }
  else r

/-- Steps 3–6 (lines 293–334): EPS validation, growth rate, stock PE, PEG and
fair value. -/
def stepCompute (sd : StockData) (r : ValuationResult) : ValuationResult :=
  -- Validate EPS data (lines 294–298)
  if !(isFiniteO r.actualEps) || !(isFiniteO r.estimatedEps) then
    { r with
      warnings := r.warnings ++
        ["Missing or invalid EPS data; valuation cannot be completed. Finnhub free API may not provide detailed EPS estimates."]
      valuationPossible := false }
  else
    let r := { r with hasForwardEps := true }
    -- Step 3: growthRate = estimatedEps / actualEps - 1
    let r := { r with
      growthRate := some (((jsToNum r.estimatedEps).div (jsToNum r.actualEps)).sub
        (JsNum.num 1)) }
    -- Step 4: determine stock PE
    match sd.pe with
    | some v => finishValuation { r with stockPe := some v }
    | none =>
        if optTruthy r.currentPrice && optTruthy r.actualEps then
          finishValuation { r with
            stockPe := some ((jsToNum r.currentPrice).div (jsToNum r.actualEps))
            warnings := r.warnings ++
              ["PE calculated from price / actualEps (not from API)."] }
        else
          { r with
            warnings := r.warnings ++ ["Cannot calculate PE; price or EPS missing."]
            valuationPossible := false }

/-- Steps 2–6 of `calculateStockValuation` (lines 269–334), run on the
stock data `getStockData` resolved with. -/
def calcWithStockData (p : ValuationParams) (sd : StockData)
    (alphaResp : Except String (Option (List AlphaEstimate))) : ValuationResult :=
  stepCompute sd (stepBetaFlag sd (stepAlpha p alphaResp (stepCopyStock p sd)))

/-- `calculateStockValuation(params)` (lines 223–342).  The whole body sits
inside `try`/`catch`, so the function always resolves with a result; the
only statement that can throw is the `getStockData` call (lines 266–267
hardcode the market figures, `getMarketPe` being commented out, and the
Alpha Vantage helper swallows its own errors). -/
def calculateStockValuation (p : ValuationParams) (env : ValuationEnv) :
    ValuationResult :=
  match getStockData p.symbol env.stock with
  | .error msg =>
      -- catch (lines 336–339)
      { marketBase p with
        warnings := (marketBase p).warnings ++ ["Error during calculation: " ++ msg]
        valuationPossible := false }
  | .ok sd => calcWithStockData p sd env.alpha

/-! ## Batch endpoint (`src/app.js`, lines 191–250) -/

/-- One element of the batch `results` array.  `.full` is a resolved
valuation result; `.errorItem` is the compact `{symbol, error,
valuationPossible:false}` object the `.catch` handler (lines 228–232)
would build from a rejected promise. -/
inductive BatchItem where
  | full (r : ValuationResult)
  | errorItem (symbol : String) (error : String)
deriving DecidableEq, Repr

/-- One mapped element of the batch `Promise.all` (lines 221–233).
The body of `calculateStockValuation` is wrapped entirely in `try`/`catch`, so
its promise always resolves and the `.catch` handler never fires: the item
is always the full result. -/
def runBatchItem (p : ValuationParams) (env : ValuationEnv) : BatchItem :=
  .full (calculateStockValuation p env)

/-- The batch `results` array: each (params, environment) pair is valued
independently. -/
def batchValuation (items : List (ValuationParams × ValuationEnv)) : List BatchItem :=
  items.map fun it => runBatchItem it.1 it.2

/-! ## Claim-side predicates and concrete test environments -/

/-- Claim-side characterisation (for the beta claim): the provider beta the
code accepts — present, truthy, finite and non-negative after parsing.
`none` when the metrics fetch failed, the `metric` object or `beta` field is
absent, or the value is falsy (`0`, `NaN`) or invalid. -/
def acceptedProviderBeta (resp : Except String (Option Metrics)) : Option JsNum :=
  match resp with
  | .ok (some mt) =>
      match mt.beta with
      | some b =>
          if b.truthy && b.isFinite && !(b.lt (JsNum.num 0)) then some b else none
      | none => none
  | _ => none

/-- Claim-side predicate (for the Alpha Vantage claim): a record qualifies
when its `date` and `eps_estimate_average` are truthy and the parsed
estimate is finite and positive. -/
def estimateQualifies (e : AlphaEstimate) : Bool :=
  strTruthy e.date &&
    (match e.eps_estimate_average with
     | some v => v.isFinite && (JsNum.num 0).lt v
     | none => false)

/-- Whether a batch item is the compact `{symbol, error, valuationPossible:false}`
object built by the batch `.catch` handler. -/
def BatchItem.isErrorItem : BatchItem → Bool
  | .full _ => false
  | .errorItem _ _ => true

/-- A `metric` object with every field absent. -/
def mEmpty : Metrics := ⟨none, none, none, none, none, none, none⟩

/-- Default request parameters: symbol `AAPL`, market `US`, market growth
rate 10 percent, Alpha Vantage key configured. -/
def pW : ValuationParams := ⟨"AAPL", "US", JsNum.num 10, true⟩

/-- Request parameters for a symbol whose quote fetch will fail. -/
def pBad : ValuationParams := ⟨"BADSYM", "US", JsNum.num 10, true⟩

/-- A healthy environment: price 10, trailing EPS 2, reported PE 15,
beta 1.2, Alpha Vantage forward estimate 4. -/
def envOk : ValuationEnv :=
  ⟨⟨.ok (JsNum.num 10),
    .ok (some { mEmpty with
      epsTTM := some (JsNum.num 2)
      peTTM := some (JsNum.num 15)
      beta := some (JsNum.num (6/5)) }),
    .ok none⟩,
   .ok (some [⟨some "2025-12", some (JsNum.num 4)⟩])⟩

/-- An environment with shrinking earnings (estimate 1 against trailing 2)
and no reported PE, so the PE is derived from price. -/
def envNeg : ValuationEnv :=
  ⟨⟨.ok (JsNum.num 10),
    .ok (some { mEmpty with epsTTM := some (JsNum.num 2) }),
    .ok none⟩,
   .ok (some [⟨some "2025-12", some (JsNum.num 1)⟩])⟩

/-- A healthy environment whose provider-reported beta is exactly `0`. -/
def envBeta0 : ValuationEnv :=
  ⟨⟨.ok (JsNum.num 10),
    .ok (some { mEmpty with
      epsTTM := some (JsNum.num 2)
      peTTM := some (JsNum.num 15)
      beta := some (JsNum.num 0) }),
    .ok none⟩,
   .ok (some [⟨some "2025-12", some (JsNum.num 4)⟩])⟩

/-- An environment whose price fetch fails at the network level. -/
def envFail : ValuationEnv :=
  ⟨⟨.error "Finnhub API call failed: API returned status 500", .ok none, .ok none⟩,
   .ok none⟩

/-- A Finnhub environment whose metrics report a trailing EPS of exactly `0`
and whose latest filing reports a net income of `n`. -/
def stockEnvEpsZero (n : JsNum) : StockDataEnv :=
  ⟨.ok (JsNum.num 10),
   .ok (some { mEmpty with epsTTM := some (JsNum.num 0) }),
   .ok (some ⟨some ⟨some ⟨some n⟩⟩⟩)⟩

theorem getStockData_ok_iff {s : String} {env : StockDataEnv} {sd : StockData} :
    getStockData s env = .ok sd ↔
      ∃ q : ℚ, env.quoteResp = .ok (JsNum.num q) ∧ 0 < q ∧ sd = stockDataOf q env := by
  constructor
  · intro h
    unfold getStockData at h
    cases hq : env.quoteResp with
    | error msg => rw [hq] at h; exact absurd h (by simp)
    | ok v =>
      rw [hq] at h
      dsimp only at h
      by_cases hv : (!v.isFinite || v.le (JsNum.num 0)) = true
      · rw [if_pos hv] at h; exact absurd h (by simp)
      · rw [if_neg hv] at h
        simp only [Except.ok.injEq] at h
        cases v with
        | nan => simp [JsNum.isFinite] at hv
        | inf => simp [JsNum.isFinite] at hv
        | ninf => simp [JsNum.isFinite] at hv
        | num q =>
          simp [JsNum.isFinite, JsNum.le] at hv
          exact ⟨q, rfl, hv, h.symm⟩
  · rintro ⟨q, hq, hpos, rfl⟩
    unfold getStockData
    rw [hq]
    dsimp only
    rw [if_neg (by simp [JsNum.isFinite, JsNum.le]; exact hpos)]
    rfl

theorem getMetricsOut_beta_eq (resp : Except String (Option Metrics)) :
    (getMetricsOut resp).beta = acceptedProviderBeta resp := by
  cases resp with
  | error msg => rfl
  | ok o =>
    cases o with
    | none => rfl
    | some mt =>
      cases hb : mt.beta with
      | none => simp [getMetricsOut, processMetrics, acceptedProviderBeta, hb]
      | some b =>
        cases b with
        | nan =>
            simp [getMetricsOut, processMetrics, acceptedProviderBeta, hb, JsNum.truthy]
        | inf =>
            simp [getMetricsOut, processMetrics, acceptedProviderBeta, hb,
              JsNum.truthy, JsNum.isFinite]
        | ninf =>
            simp [getMetricsOut, processMetrics, acceptedProviderBeta, hb,
              JsNum.truthy, JsNum.isFinite]
        | num q =>
          by_cases hq : q = 0
          · simp [getMetricsOut, processMetrics, acceptedProviderBeta, hb, hq,
              JsNum.truthy]
          · by_cases hq2 : q < 0 <;>
              simp [getMetricsOut, processMetrics, acceptedProviderBeta, hb, hq, hq2,
                JsNum.truthy, JsNum.isFinite, JsNum.lt]

theorem acceptedProviderBeta_shape {resp : Except String (Option Metrics)} {b : JsNum}
    (h : acceptedProviderBeta resp = some b) : ∃ q : ℚ, b = JsNum.num q ∧ 0 ≤ q := by
  cases resp with
  | error msg => exact absurd h (by simp [acceptedProviderBeta])
  | ok o =>
    cases o with
    | none => exact absurd h (by simp [acceptedProviderBeta])
    | some mt =>
      unfold acceptedProviderBeta at h
      dsimp only at h
      cases hb : mt.beta with
      | none => rw [hb] at h; exact absurd h (by simp)
      | some v =>
        rw [hb] at h
        dsimp only at h
        by_cases hc : (v.truthy && v.isFinite && !v.lt (JsNum.num 0)) = true
        · rw [if_pos hc] at h
          cases v with
          | nan => simp [JsNum.truthy] at hc
          | inf => simp [JsNum.isFinite] at hc
          | ninf => simp [JsNum.isFinite] at hc
          | num q =>
            simp only [Option.some.injEq] at h
            refine ⟨q, h.symm, ?_⟩
            by_contra hneg
            push_neg at hneg
            simp [JsNum.lt, JsNum.truthy, JsNum.isFinite, hneg] at hc
        · rw [if_neg hc] at h; exact absurd h (by simp)

theorem stockDataOf_beta (q : ℚ) (env : StockDataEnv) :
    ∃ b : ℚ, (stockDataOf q env).beta = JsNum.num b ∧ 0 ≤ b := by
  cases hb : acceptedProviderBeta env.metricsResp with
  | none =>
      refine ⟨1, ?_, by norm_num⟩
      simp only [stockDataOf]
      rw [show (getMetricsOut env.metricsResp).beta = none from
        (getMetricsOut_beta_eq env.metricsResp).trans hb]
  | some b =>
    obtain ⟨qb, rfl, hqb⟩ := acceptedProviderBeta_shape hb
    refine ⟨qb, ?_, hqb⟩
    simp only [stockDataOf]
    rw [show (getMetricsOut env.metricsResp).beta = some (JsNum.num qb) from
      (getMetricsOut_beta_eq env.metricsResp).trans hb]

theorem num_add_num (a b : ℚ) : (JsNum.num a).add (JsNum.num b) = JsNum.num (a + b) := rfl

theorem num_sub_num (a b : ℚ) : (JsNum.num a).sub (JsNum.num b) = JsNum.num (a - b) := by
  simp [JsNum.sub, JsNum.add, JsNum.neg, sub_eq_add_neg]

theorem num_mul_num (a b : ℚ) : (JsNum.num a).mul (JsNum.num b) = JsNum.num (a * b) := rfl

theorem num_div_num {b : ℚ} (a : ℚ) (hb : b ≠ 0) :
    (JsNum.num a).div (JsNum.num b) = JsNum.num (a / b) := by
  simp [JsNum.div, hb]

theorem num_le_num (a b : ℚ) : (JsNum.num a).le (JsNum.num b) = decide (a ≤ b) := by
  simp [JsNum.le]

theorem num_lt_num (a b : ℚ) : (JsNum.num a).lt (JsNum.num b) = decide (a < b) := by
  simp [JsNum.lt]

theorem findEstimate_pos {l : List AlphaEstimate} {eps : JsNum} {per : String}
    (h : findEstimate l = some (eps, per)) : ∃ q : ℚ, eps = JsNum.num q ∧ 0 < q := by
  induction l with
  | nil => exact absurd h (by simp [findEstimate])
  | cons e rest ih =>
    unfold findEstimate at h
    by_cases hd : strTruthy e.date = true
    · rw [if_pos hd] at h
      cases havg : e.eps_estimate_average with
      | none => rw [havg] at h; exact ih h
      | some v =>
        rw [havg] at h
        dsimp only at h
        by_cases hq : (v.isFinite && (JsNum.num 0).lt v) = true
        · rw [if_pos hq] at h
          simp only [Option.some.injEq, Prod.mk.injEq] at h
          cases v with
          | nan => simp [JsNum.isFinite] at hq
          | inf => simp [JsNum.isFinite] at hq
          | ninf => simp [JsNum.isFinite] at hq
          | num qv =>
            refine ⟨qv, h.1.symm, ?_⟩
            simp [JsNum.lt, JsNum.isFinite] at hq
            exact hq
        · rw [if_neg hq] at h; exact ih h
    · rw [if_neg hd] at h; exact ih h

theorem getEstimatedEps_pos {resp : Except String (Option (List AlphaEstimate))}
    {eps : JsNum} {per : String}
    (h : getEstimatedEpsFromAlphaVantage resp = some (eps, per)) :
    ∃ q : ℚ, eps = JsNum.num q ∧ 0 < q := by
  cases resp with
  | error msg => exact absurd h (by simp [getEstimatedEpsFromAlphaVantage])
  | ok o =>
    cases o with
    | none => exact absurd h (by simp [getEstimatedEpsFromAlphaVantage])
    | some ests =>
      unfold getEstimatedEpsFromAlphaVantage at h
      dsimp only at h
      by_cases hl : ests.length > 0
      · rw [if_pos hl] at h; exact findEstimate_pos h
      · rw [if_neg hl] at h; exact absurd h (by simp)

theorem findEstimate_eq_find (l : List AlphaEstimate) :
    findEstimate l = (l.find? estimateQualifies).map
      (fun e => (e.eps_estimate_average.getD JsNum.nan, e.date.getD "")) := by
  induction l with
  | nil => simp [findEstimate]
  | cons e rest ih =>
    unfold findEstimate
    rw [List.find?_cons]
    by_cases hd : strTruthy e.date = true
    · cases havg : e.eps_estimate_average with
      | none =>
        have hq : estimateQualifies e = false := by
          simp [estimateQualifies, havg]
        rw [hq]
        dsimp only
        rw [if_pos hd]
        exact ih
      | some v =>
        have hq : estimateQualifies e = (v.isFinite && (JsNum.num 0).lt v) := by
          simp [estimateQualifies, havg, hd]
        rw [hq]
        rw [if_pos hd]
        dsimp only
        cases hv : (v.isFinite && (JsNum.num 0).lt v) with
        | true => simp [havg]
        | false => simpa using ih
    · simp only [Bool.not_eq_true] at hd
      have hq : estimateQualifies e = false := by
        simp [estimateQualifies, hd]
      rw [hq]
      dsimp only
      rw [if_neg (by simp [hd])]
      exact ih

theorem finishValuation_gate (r : ValuationResult)
    (h : ((jsToNum r.growthRate).le (JsNum.num 0)
          || (jsToNum r.stockPe).le (JsNum.num 0)) = true) :
    finishValuation r = { r with
      warnings := r.warnings ++
        ["Growth rate or PE is non-positive; PEG-based valuation not meaningful."]
      valuationPossible := false } := by
  unfold finishValuation
  rw [if_pos h]

theorem finishValuation_fairValue_of_false {r : ValuationResult}
    (h : (finishValuation r).valuationPossible = false) :
    (finishValuation r).fairValue = r.fairValue := by
  obtain ⟨sym, mkt, mpe, mpeg, bta, aeps, eeps, spe, grow, speg, cprice, fv, agr,
    warn, hfe, bfu, vp⟩ := r
  unfold finishValuation at h ⊢
  by_cases c1 : ((jsToNum grow).le (JsNum.num 0) || (jsToNum spe).le (JsNum.num 0)) = true
  · rw [if_pos c1]
  · rw [if_neg c1] at h ⊢
    dsimp only at h ⊢
    by_cases c2 : (decide (calculatePeg (jsToNum spe) (jsToNum grow) = none)
        || (jsToNum (calculatePeg (jsToNum spe) (jsToNum grow))).le (JsNum.num 0)) = true
    · rw [if_pos c2]
    · rw [if_neg c2] at h
      exact absurd h (by simp)

theorem finishValuation_success {r : ValuationResult}
    (hgn : jsToNum r.growthRate ≠ JsNum.nan)
    (h : (finishValuation r).valuationPossible = true) :
    ∃ g pe : ℚ, r.growthRate = some (JsNum.num g) ∧ 0 < g ∧
      r.stockPe = some (JsNum.num pe) ∧ 0 < pe ∧ 0 < pe / (g * 100) ∧
      finishValuation r = { r with
        stockPeg := some (JsNum.num (pe / (g * 100)))
        fairValue := some ((jsToNum r.currentPrice).mul
          (((jsToNum r.marketPeg).add
            ((((jsToNum r.beta).sub (JsNum.num 1)).mul (JsNum.num (7/10))).mul
              (jsToNum r.marketPeg))).div (JsNum.num (pe / (g * 100)))))
        valuationPossible := true } := by
  obtain ⟨sym, mkt, mpe, mpeg, bta, aeps, eeps, spe, grow, speg, cprice, fv, agr,
    warn, hfe, bfu, vp⟩ := r
  unfold finishValuation at h
  by_cases c1 : ((jsToNum grow).le (JsNum.num 0) || (jsToNum spe).le (JsNum.num 0)) = true
  · rw [if_pos c1] at h; exact absurd h (by simp)
  · rw [if_neg c1] at h
    dsimp only at h
    by_cases c2 : (decide (calculatePeg (jsToNum spe) (jsToNum grow) = none)
        || (jsToNum (calculatePeg (jsToNum spe) (jsToNum grow))).le (JsNum.num 0)) = true
    · rw [if_pos c2] at h; exact absurd h (by simp)
    · have c1d := c1
      have c2d := c2
      simp only [Bool.or_eq_true, not_or, Bool.not_eq_true, decide_eq_true_eq] at c1d c2d
      obtain ⟨hg1, hp1⟩ := c1d
      obtain ⟨hne, hle⟩ := c2d
      cases grow with
      | none => simp [jsToNum, JsNum.le] at hg1
      | some g0 =>
        simp only [jsToNum] at hg1 hgn hne hle
        cases g0 with
        | nan => exact absurd rfl hgn
        | ninf => simp [JsNum.le] at hg1
        | inf =>
          exfalso
          cases spe with
          | none => simp [jsToNum, JsNum.le] at hp1
          | some pv =>
            simp only [jsToNum] at hp1 hne hle
            cases pv with
            | nan => simp [calculatePeg, JsNum.le, JsNum.isFinite] at hne
            | inf => simp [calculatePeg, JsNum.le, JsNum.isFinite] at hne
            | ninf => simp [JsNum.le] at hp1
            | num pq =>
              have hppos : 0 < pq := by
                simp [JsNum.le] at hp1
                exact hp1
              have hpeg0 : calculatePeg (JsNum.num pq) JsNum.inf = some (JsNum.num 0) := by
                unfold calculatePeg
                rw [if_neg (by simp [JsNum.le, JsNum.isFinite]; exact hppos)]
                norm_num [JsNum.mul, JsNum.div]
              rw [hpeg0] at hle
              simp [JsNum.le] at hle
        | num g =>
          have hgpos : 0 < g := by
            simp [JsNum.le] at hg1
            exact hg1
          cases spe with
          | none => simp [jsToNum, JsNum.le] at hp1
          | some pv =>
            simp only [jsToNum] at hp1 hne hle
            cases pv with
            | nan => simp [calculatePeg, JsNum.le, JsNum.isFinite] at hne
            | inf => simp [calculatePeg, JsNum.le, JsNum.isFinite] at hne
            | ninf => simp [JsNum.le] at hp1
            | num pq =>
              have hppos : 0 < pq := by
                simp [JsNum.le] at hp1
                exact hp1
              have h100 : g * 100 ≠ 0 := by positivity
              have hpeg : calculatePeg (JsNum.num pq) (JsNum.num g) =
                  some (JsNum.num (pq / (g * 100))) := by
                unfold calculatePeg
                rw [if_neg (by
                  simp [JsNum.le, JsNum.isFinite]
                  exact ⟨hgpos, hppos⟩)]
                rw [num_mul_num, num_div_num pq h100]
              refine ⟨g, pq, rfl, hgpos, rfl, hppos, by positivity, ?_⟩
              unfold finishValuation
              rw [if_neg c1]
              dsimp only
              rw [if_neg c2]
              simp only [jsToNum]
              rw [hpeg]

theorem marketPeg_val : (JsNum.num 29).div (JsNum.num (27/2)) = JsNum.num (58/27) := by
  rw [num_div_num 29 (by norm_num)]
  norm_num

theorem stepAlpha_noKey {p : ValuationParams}
    {alphaResp : Except String (Option (List AlphaEstimate))} {r : ValuationResult}
    (hk : p.hasAlphaVantageKey = false) : stepAlpha p alphaResp r = r := by
  unfold stepAlpha
  rw [if_neg (by simp [hk])]

theorem stepAlpha_found {p : ValuationParams}
    {alphaResp : Except String (Option (List AlphaEstimate))} {r : ValuationResult}
    {eps : JsNum} {per : String}
    (hest : r.estimatedEps = none) (hk : p.hasAlphaVantageKey = true)
    (ha : getEstimatedEpsFromAlphaVantage alphaResp = some (eps, per)) :
    stepAlpha p alphaResp r = { r with
      estimatedEps := some eps
      warnings := r.warnings ++
        ["Estimated EPS from Alpha Vantage for period " ++ per] } := by
  unfold stepAlpha
  rw [if_pos (by simp [hest, isFiniteO, hk]), ha]

theorem stepAlpha_notFound {p : ValuationParams}
    {alphaResp : Except String (Option (List AlphaEstimate))} {r : ValuationResult}
    (hest : r.estimatedEps = none) (hk : p.hasAlphaVantageKey = true)
    (ha : getEstimatedEpsFromAlphaVantage alphaResp = none) :
    stepAlpha p alphaResp r = r := by
  unfold stepAlpha
  rw [if_pos (by simp [hest, isFiniteO, hk]), ha]

theorem stepBetaFlag_cases (sd : StockData) (r : ValuationResult) :
    stepBetaFlag sd r = { r with betaFallbackUsed := true } ∨ stepBetaFlag sd r = r := by
  unfold stepBetaFlag
  by_cases c : ((decide (sd.beta ≠ JsNum.num 1) || sd.warnings.any fun w => jsIncludes w "default") &&
      sd.warnings.any fun w => jsIncludes w "default beta") = true
  · left; rw [if_pos c]
  · right; rw [if_neg c]

theorem stepBetaFlag_bfu (sd : StockData) (r : ValuationResult) :
    (stepBetaFlag sd r).betaFallbackUsed =
      (((decide (sd.beta ≠ JsNum.num 1) || sd.warnings.any fun w => jsIncludes w "default") &&
        sd.warnings.any fun w => jsIncludes w "default beta") || r.betaFallbackUsed) := by
  unfold stepBetaFlag
  by_cases c : ((decide (sd.beta ≠ JsNum.num 1) || sd.warnings.any fun w => jsIncludes w "default") &&
      sd.warnings.any fun w => jsIncludes w "default beta") = true
  · rw [if_pos c, c]; rfl
  · rw [if_neg c]
    simp only [Bool.not_eq_true] at c
    rw [c]
    rfl

theorem stepCompute_success {sd : StockData} {r : ValuationResult}
    (hce : ∃ e : ℚ, r.estimatedEps = some (JsNum.num e) ∧ 0 < e)
    (hcp : ∃ q : ℚ, r.currentPrice = some (JsNum.num q) ∧ 0 < q)
    (h : (stepCompute sd r).valuationPossible = true) :
    ∃ (e a g pe : ℚ) (W : List String),
      r.estimatedEps = some (JsNum.num e) ∧ 0 < e ∧
      r.actualEps = some (JsNum.num a) ∧ a ≠ 0 ∧
      0 < g ∧ g = e / a - 1 ∧ 0 < pe ∧ 0 < pe / (g * 100) ∧
      stepCompute sd r = { r with
        hasForwardEps := true
        growthRate := some (JsNum.num g)
        stockPe := some (JsNum.num pe)
        stockPeg := some (JsNum.num (pe / (g * 100)))
        fairValue := some ((jsToNum r.currentPrice).mul
          (((jsToNum r.marketPeg).add
            ((((jsToNum r.beta).sub (JsNum.num 1)).mul (JsNum.num (7/10))).mul
              (jsToNum r.marketPeg))).div (JsNum.num (pe / (g * 100)))))
        warnings := W
        valuationPossible := true } := by
  obtain ⟨e, hee, hepos⟩ := hce
  obtain ⟨cq, hqq, hqpos⟩ := hcp
  obtain ⟨sbeta, saeps, seeps, sprice, sdpe, swarn⟩ := sd
  obtain ⟨sym, mkt, mpe, mpeg, bta, aeps, eeps, spe, grow, speg, cprice, fv, agr,
    warn, hfe, bfu, vp⟩ := r
  dsimp only at hee hqq
  subst hee hqq
  unfold stepCompute at h ⊢
  dsimp only at h ⊢
  cases aeps with
  | none =>
    rw [if_pos (by simp [isFiniteO])] at h
    exact absurd h (by simp)
  | some av =>
    cases av with
    | nan =>
      rw [if_pos (by simp [isFiniteO, JsNum.isFinite])] at h
      exact absurd h (by simp)
    | inf =>
      rw [if_pos (by simp [isFiniteO, JsNum.isFinite])] at h
      exact absurd h (by simp)
    | ninf =>
      rw [if_pos (by simp [isFiniteO, JsNum.isFinite])] at h
      exact absurd h (by simp)
    | num a =>
      rw [if_neg (by simp [isFiniteO, JsNum.isFinite])] at h ⊢
      dsimp only [jsToNum] at h ⊢
      by_cases ha0 : a = 0
      · subst ha0
        rw [show (JsNum.num e).div (JsNum.num 0) = JsNum.inf by
          simp [JsNum.div, hepos, hepos.ne']] at h
        rw [show JsNum.inf.sub (JsNum.num 1) = JsNum.inf by rfl] at h
        cases sdpe with
        | some v =>
          dsimp only at h
          obtain ⟨g, pe, hgr, -, -, -, -, -⟩ :=
            finishValuation_success (by simp [jsToNum]) h
          exact absurd hgr (by simp)
        | none =>
          dsimp only at h
          rw [if_neg (by simp [optTruthy, JsNum.truthy])] at h
          exact absurd h (by simp)
      · rw [show (JsNum.num e).div (JsNum.num a) = JsNum.num (e / a) from
          num_div_num e ha0] at h ⊢
        rw [num_sub_num] at h ⊢
        cases sdpe with
        | some v =>
          dsimp only at h ⊢
          obtain ⟨g, pe, hgr, hgpos, hpeq, hpepos, hpegpos, heq⟩ :=
            finishValuation_success (by simp [jsToNum]) h
          dsimp only at hgr hpeq
          simp only [Option.some.injEq, JsNum.num.injEq] at hgr hpeq
          subst hpeq
          subst hgr
          rw [heq]
          exact ⟨e, a, e / a - 1, pe, warn, rfl, hepos, rfl, ha0, hgpos, rfl,
            hpepos, hpegpos, rfl⟩
        | none =>
          dsimp only at h ⊢
          rw [if_pos (by simp [optTruthy, JsNum.truthy, ha0, hqpos.ne'])] at h ⊢
          rw [show (JsNum.num cq).div (JsNum.num a) = JsNum.num (cq / a) from
            num_div_num cq ha0] at h ⊢
          obtain ⟨g, pe, hgr, hgpos, hpeq, hpepos, hpegpos, heq⟩ :=
            finishValuation_success (by simp [jsToNum]) h
          dsimp only at hgr hpeq
          simp only [Option.some.injEq, JsNum.num.injEq] at hgr hpeq
          subst hgr
          rw [heq, hpeq]
          exact ⟨e, a, e / a - 1, pe,
            warn ++ ["PE calculated from price / actualEps (not from API)."],
            rfl, hepos, rfl, ha0, hgpos, rfl, hpepos, hpegpos, rfl⟩

theorem stepCompute_none_est {sd : StockData} {r : ValuationResult}
    (hest : r.estimatedEps = none) :
    stepCompute sd r = { r with
      warnings := r.warnings ++
        ["Missing or invalid EPS data; valuation cannot be completed. Finnhub free API may not provide detailed EPS estimates."]
      valuationPossible := false } := by
  unfold stepCompute
  rw [if_pos (by simp [hest, isFiniteO])]

theorem calcWithStockData_success {p : ValuationParams} {sd : StockData}
    {alphaResp : Except String (Option (List AlphaEstimate))}
    (hest : sd.estimatedEps = none)
    (hpr : ∃ q : ℚ, sd.price = JsNum.num q ∧ 0 < q)
    (hbt : ∃ b : ℚ, sd.beta = JsNum.num b ∧ 0 ≤ b)
    (h : (calcWithStockData p sd alphaResp).valuationPossible = true) :
    ∃ (pr b e a g pe : ℚ) (W : List String) (bfu : Bool),
      calcWithStockData p sd alphaResp =
        { symbol := p.symbol
          market := p.market
          marketPe := some (JsNum.num 29)
          marketPeg := some (JsNum.num (58/27))
          beta := some (JsNum.num b)
          actualEps := some (JsNum.num a)
          estimatedEps := some (JsNum.num e)
          stockPe := some (JsNum.num pe)
          growthRate := some (JsNum.num g)
          stockPeg := some (JsNum.num (pe / (g * 100)))
          currentPrice := some (JsNum.num pr)
          fairValue := some (JsNum.num
            (pr * ((58/27 + (b - 1) * (7/10) * (58/27)) / (pe / (g * 100)))))
          assumedMarketGrowthRatePercent := p.marketGrowthRatePercent
          warnings := W
          hasForwardEps := true
          betaFallbackUsed := bfu
          valuationPossible := true } ∧
      0 < pr ∧ 0 ≤ b ∧ 0 < e ∧ a ≠ 0 ∧ 0 < g ∧ g = e / a - 1 ∧ 0 < pe ∧
      0 < pe / (g * 100) := by
  obtain ⟨q, hq, hqpos⟩ := hpr
  obtain ⟨b, hb, hbpos⟩ := hbt
  obtain ⟨sbeta, saeps, seeps, sprice, sdpe, swarn⟩ := sd
  dsimp only at hest hq hb
  subst hest hq hb
  unfold calcWithStockData at h ⊢
  cases hkey : p.hasAlphaVantageKey with
  | false =>
    rw [stepAlpha_noKey hkey] at h
    rcases stepBetaFlag_cases ⟨JsNum.num b, saeps, none, JsNum.num q, sdpe, swarn⟩
        (stepCopyStock p ⟨JsNum.num b, saeps, none, JsNum.num q, sdpe, swarn⟩)
      with hc | hc <;> rw [hc] at h <;>
      rw [stepCompute_none_est (by rfl)] at h <;> exact absurd h (by simp)
  | true =>
    cases halpha : getEstimatedEpsFromAlphaVantage alphaResp with
    | none =>
      rw [stepAlpha_notFound rfl hkey halpha] at h
      rcases stepBetaFlag_cases ⟨JsNum.num b, saeps, none, JsNum.num q, sdpe, swarn⟩
          (stepCopyStock p ⟨JsNum.num b, saeps, none, JsNum.num q, sdpe, swarn⟩)
        with hc | hc <;> rw [hc] at h <;>
        rw [stepCompute_none_est (by rfl)] at h <;> exact absurd h (by simp)
    | some epsper =>
      obtain ⟨eps, per⟩ := epsper
      obtain ⟨e, rfl, hepos⟩ := getEstimatedEps_pos halpha
      rw [stepAlpha_found rfl hkey halpha] at h ⊢
      rcases stepBetaFlag_cases ⟨JsNum.num b, saeps, none, JsNum.num q, sdpe, swarn⟩
          { stepCopyStock p ⟨JsNum.num b, saeps, none, JsNum.num q, sdpe, swarn⟩ with
            estimatedEps := some (JsNum.num e)
            warnings := (stepCopyStock p
              ⟨JsNum.num b, saeps, none, JsNum.num q, sdpe, swarn⟩).warnings ++
              ["Estimated EPS from Alpha Vantage for period " ++ per] }
        with hc | hc
      · rw [hc] at h ⊢
        obtain ⟨e', a, g, pe, W, hest', hepos', hact, ha0, hgpos, hgeq, hpepos,
          hpegpos, heq⟩ := stepCompute_success ⟨e, rfl, hepos⟩ ⟨q, rfl, hqpos⟩ h
        have he' : e' = e := by
          dsimp only at hest'
          simp only [Option.some.injEq, JsNum.num.injEq] at hest'
          exact hest'.symm
        have hgeq' : g = e / a - 1 := by rw [hgeq, he']
        have hact' : saeps = some (JsNum.num a) := by
          dsimp only at hact
          exact hact
        rw [heq]
        refine ⟨q, b, e, a, g, pe, W, true, ?_, hqpos, hbpos, hepos, ha0, hgpos, hgeq',
          hpepos, hpegpos⟩
        dsimp only [stepCopyStock, marketBase, initResult]
        rw [hact']
        dsimp only [jsToNum]
        rw [marketPeg_val]
        rw [num_sub_num, num_mul_num, num_mul_num, num_add_num,
          num_div_num _ (ne_of_gt hpegpos), num_mul_num]
      · rw [hc] at h ⊢
        obtain ⟨e', a, g, pe, W, hest', hepos', hact, ha0, hgpos, hgeq, hpepos,
          hpegpos, heq⟩ := stepCompute_success ⟨e, rfl, hepos⟩ ⟨q, rfl, hqpos⟩ h
        have he' : e' = e := by
          dsimp only at hest'
          simp only [Option.some.injEq, JsNum.num.injEq] at hest'
          exact hest'.symm
        have hgeq' : g = e / a - 1 := by rw [hgeq, he']
        have hact' : saeps = some (JsNum.num a) := by
          dsimp only at hact
          exact hact
        rw [heq]
        refine ⟨q, b, e, a, g, pe, W, false, ?_, hqpos, hbpos, hepos, ha0, hgpos, hgeq',
          hpepos, hpegpos⟩
        dsimp only [stepCopyStock, marketBase, initResult]
        rw [hact']
        dsimp only [jsToNum]
        rw [marketPeg_val]
        rw [num_sub_num, num_mul_num, num_mul_num, num_add_num,
          num_div_num _ (ne_of_gt hpegpos), num_mul_num]

theorem finishValuation_preserves (r : ValuationResult) :
    (finishValuation r).symbol = r.symbol ∧
    (finishValuation r).market = r.market ∧
    (finishValuation r).marketPe = r.marketPe ∧
    (finishValuation r).marketPeg = r.marketPeg ∧
    (finishValuation r).beta = r.beta ∧
    (finishValuation r).actualEps = r.actualEps ∧
    (finishValuation r).estimatedEps = r.estimatedEps ∧
    (finishValuation r).stockPe = r.stockPe ∧
    (finishValuation r).growthRate = r.growthRate ∧
    (finishValuation r).currentPrice = r.currentPrice ∧
    (finishValuation r).assumedMarketGrowthRatePercent = r.assumedMarketGrowthRatePercent ∧
    (finishValuation r).hasForwardEps = r.hasForwardEps ∧
    (finishValuation r).betaFallbackUsed = r.betaFallbackUsed := by
  unfold finishValuation
  split
  · exact ⟨rfl, rfl, rfl, rfl, rfl, rfl, rfl, rfl, rfl, rfl, rfl, rfl, rfl⟩
  · dsimp only
    split
    · exact ⟨rfl, rfl, rfl, rfl, rfl, rfl, rfl, rfl, rfl, rfl, rfl, rfl, rfl⟩
    · exact ⟨rfl, rfl, rfl, rfl, rfl, rfl, rfl, rfl, rfl, rfl, rfl, rfl, rfl⟩

theorem finishValuation_warnings (r : ValuationResult) :
    ∃ t, (finishValuation r).warnings = r.warnings ++ t := by
  unfold finishValuation
  split
  · exact ⟨_, rfl⟩
  · dsimp only
    split
    · exact ⟨_, rfl⟩
    · exact ⟨[], by simp⟩

theorem stepCompute_preserves (sd : StockData) (r : ValuationResult) :
    (stepCompute sd r).beta = r.beta ∧
    (stepCompute sd r).betaFallbackUsed = r.betaFallbackUsed ∧
    (stepCompute sd r).marketPe = r.marketPe ∧
    (stepCompute sd r).marketPeg = r.marketPeg ∧
    (stepCompute sd r).currentPrice = r.currentPrice ∧
    (stepCompute sd r).actualEps = r.actualEps ∧
    (stepCompute sd r).estimatedEps = r.estimatedEps ∧
    (stepCompute sd r).symbol = r.symbol ∧
    (stepCompute sd r).market = r.market ∧
    (stepCompute sd r).assumedMarketGrowthRatePercent =
      r.assumedMarketGrowthRatePercent := by
  unfold stepCompute
  split
  · exact ⟨rfl, rfl, rfl, rfl, rfl, rfl, rfl, rfl, rfl, rfl⟩
  · dsimp only
    split
    · obtain ⟨h1, h2, h3, h4, h5, h6, h7, h8, h9, h10, h11, h12, h13⟩ :=
        finishValuation_preserves _
      exact ⟨h5, h13, h3, h4, h10, h6, h7, h1, h2, h11⟩
    · split
      · obtain ⟨h1, h2, h3, h4, h5, h6, h7, h8, h9, h10, h11, h12, h13⟩ :=
          finishValuation_preserves _
        exact ⟨h5, h13, h3, h4, h10, h6, h7, h1, h2, h11⟩
      · exact ⟨rfl, rfl, rfl, rfl, rfl, rfl, rfl, rfl, rfl, rfl⟩

theorem stepCompute_warnings (sd : StockData) (r : ValuationResult) :
    ∃ t, (stepCompute sd r).warnings = r.warnings ++ t := by
  unfold stepCompute
  split
  · exact ⟨_, rfl⟩
  · dsimp only
    split
    · obtain ⟨t, ht⟩ := finishValuation_warnings _
      exact ⟨t, ht⟩
    · split
      · obtain ⟨t, ht⟩ := finishValuation_warnings _
        refine ⟨["PE calculated from price / actualEps (not from API)."] ++ t, ?_⟩
        rw [ht]
        exact (List.append_assoc _ _ _).symm ▸ rfl
      · exact ⟨_, rfl⟩

theorem stepCompute_fairValue_of_false {sd : StockData} {r : ValuationResult}
    (h : (stepCompute sd r).valuationPossible = false) :
    (stepCompute sd r).fairValue = r.fairValue := by
  unfold stepCompute at h ⊢
  split at h <;> rename_i hcond
  · rw [if_pos hcond]
  · rw [if_neg hcond]
    dsimp only at h ⊢
    cases hpe : sd.pe with
    | some v =>
      try rw [hpe] at h
      try rw [hpe]
      dsimp only at h ⊢
      exact finishValuation_fairValue_of_false h
    | none =>
      try rw [hpe] at h
      try rw [hpe]
      dsimp only at h ⊢
      split at h <;> rename_i hc2
      · rw [if_pos hc2]
        exact finishValuation_fairValue_of_false h
      · rw [if_neg hc2]

theorem stepAlpha_preserves (p : ValuationParams)
    (alphaResp : Except String (Option (List AlphaEstimate))) (r : ValuationResult) :
    (stepAlpha p alphaResp r).beta = r.beta ∧
    (stepAlpha p alphaResp r).betaFallbackUsed = r.betaFallbackUsed ∧
    (stepAlpha p alphaResp r).marketPe = r.marketPe ∧
    (stepAlpha p alphaResp r).marketPeg = r.marketPeg ∧
    (stepAlpha p alphaResp r).currentPrice = r.currentPrice ∧
    (stepAlpha p alphaResp r).actualEps = r.actualEps ∧
    (stepAlpha p alphaResp r).growthRate = r.growthRate ∧
    (stepAlpha p alphaResp r).fairValue = r.fairValue ∧
    (stepAlpha p alphaResp r).valuationPossible = r.valuationPossible := by
  unfold stepAlpha
  split
  · split
    · exact ⟨rfl, rfl, rfl, rfl, rfl, rfl, rfl, rfl, rfl⟩
    · exact ⟨rfl, rfl, rfl, rfl, rfl, rfl, rfl, rfl, rfl⟩
  · exact ⟨rfl, rfl, rfl, rfl, rfl, rfl, rfl, rfl, rfl⟩

theorem stepAlpha_warnings (p : ValuationParams)
    (alphaResp : Except String (Option (List AlphaEstimate))) (r : ValuationResult) :
    ∃ t, (stepAlpha p alphaResp r).warnings = r.warnings ++ t := by
  unfold stepAlpha
  split
  · split
    · exact ⟨_, rfl⟩
    · exact ⟨[], by simp⟩
  · exact ⟨[], by simp⟩

theorem stepBetaFlag_preserves (sd : StockData) (r : ValuationResult) :
    (stepBetaFlag sd r).beta = r.beta ∧
    (stepBetaFlag sd r).marketPe = r.marketPe ∧
    (stepBetaFlag sd r).marketPeg = r.marketPeg ∧
    (stepBetaFlag sd r).currentPrice = r.currentPrice ∧
    (stepBetaFlag sd r).actualEps = r.actualEps ∧
    (stepBetaFlag sd r).estimatedEps = r.estimatedEps ∧
    (stepBetaFlag sd r).growthRate = r.growthRate ∧
    (stepBetaFlag sd r).fairValue = r.fairValue ∧
    (stepBetaFlag sd r).warnings = r.warnings ∧
    (stepBetaFlag sd r).valuationPossible = r.valuationPossible := by
  unfold stepBetaFlag
  split
  · exact ⟨rfl, rfl, rfl, rfl, rfl, rfl, rfl, rfl, rfl, rfl⟩
  · exact ⟨rfl, rfl, rfl, rfl, rfl, rfl, rfl, rfl, rfl, rfl⟩

theorem calculateStockValuation_ok_eq {p : ValuationParams} {env : ValuationEnv}
    {sd : StockData} (h : getStockData p.symbol env.stock = .ok sd) :
    calculateStockValuation p env =
      stepCompute sd (stepBetaFlag sd (stepAlpha p env.alpha (stepCopyStock p sd))) := by
  unfold calculateStockValuation calcWithStockData
  rw [h]

theorem calculateStockValuation_error_eq {p : ValuationParams} {env : ValuationEnv}
    {msg : String} (h : getStockData p.symbol env.stock = .error msg) :
    calculateStockValuation p env = { marketBase p with
      warnings := (marketBase p).warnings ++ ["Error during calculation: " ++ msg]
      valuationPossible := false } := by
  unfold calculateStockValuation
  rw [h]

theorem calculateStockValuation_false_fairValue {p : ValuationParams}
    {env : ValuationEnv}
    (h : (calculateStockValuation p env).valuationPossible = false) :
    (calculateStockValuation p env).fairValue = none := by
  cases hsd : getStockData p.symbol env.stock with
  | error msg =>
    rw [calculateStockValuation_error_eq hsd]
    rfl
  | ok sd =>
    rw [calculateStockValuation_ok_eq hsd] at h ⊢
    rw [stepCompute_fairValue_of_false h]
    rw [(stepBetaFlag_preserves sd _).2.2.2.2.2.2.2.1]
    rw [(stepAlpha_preserves p env.alpha _).2.2.2.2.2.2.2.1]
    rfl

theorem calculateStockValuation_success {p : ValuationParams} {env : ValuationEnv}
    (h : (calculateStockValuation p env).valuationPossible = true) :
    ∃ (pr b e a g pe : ℚ) (W : List String) (bfu : Bool),
      calculateStockValuation p env =
        { symbol := p.symbol
          market := p.market
          marketPe := some (JsNum.num 29)
          marketPeg := some (JsNum.num (58/27))
          beta := some (JsNum.num b)
          actualEps := some (JsNum.num a)
          estimatedEps := some (JsNum.num e)
          stockPe := some (JsNum.num pe)
          growthRate := some (JsNum.num g)
          stockPeg := some (JsNum.num (pe / (g * 100)))
          currentPrice := some (JsNum.num pr)
          fairValue := some (JsNum.num
            (pr * ((58/27 + (b - 1) * (7/10) * (58/27)) / (pe / (g * 100)))))
          assumedMarketGrowthRatePercent := p.marketGrowthRatePercent
          warnings := W
          hasForwardEps := true
          betaFallbackUsed := bfu
          valuationPossible := true } ∧
      0 < pr ∧ 0 ≤ b ∧ 0 < e ∧ a ≠ 0 ∧ 0 < g ∧ g = e / a - 1 ∧ 0 < pe ∧
      0 < pe / (g * 100) := by
  cases hsd : getStockData p.symbol env.stock with
  | error msg =>
    rw [calculateStockValuation_error_eq hsd] at h
    exact absurd h (by simp)
  | ok sd =>
    obtain ⟨q, hq, hqpos, rfl⟩ := getStockData_ok_iff.mp hsd
    have heq : calculateStockValuation p env = calcWithStockData p (stockDataOf q env.stock) env.alpha := by
      unfold calculateStockValuation calcWithStockData
      rw [hsd]
    rw [heq] at h ⊢
    exact calcWithStockData_success rfl ⟨q, rfl, hqpos⟩ (stockDataOf_beta q env.stock) h

theorem stepCompute_growth_gate {sd : StockData} {r : ValuationResult} {g' : JsNum}
    (hgr0 : r.growthRate = none)
    (hce : ∃ e : ℚ, r.estimatedEps = some (JsNum.num e) ∧ 0 < e)
    (hcp : ∃ q : ℚ, r.currentPrice = some (JsNum.num q) ∧ 0 < q)
    (hg : (stepCompute sd r).growthRate = some g')
    (hle : g'.le (JsNum.num 0) = true) :
    (stepCompute sd r).valuationPossible = false ∧
    "Growth rate or PE is non-positive; PEG-based valuation not meaningful." ∈
      (stepCompute sd r).warnings ∧
    (stepCompute sd r).fairValue = r.fairValue := by
  obtain ⟨e, hee, hepos⟩ := hce
  obtain ⟨cq, hqq, hqpos⟩ := hcp
  obtain ⟨sbeta, saeps, seeps, sprice, sdpe, swarn⟩ := sd
  obtain ⟨sym, mkt, mpe, mpeg, bta, aeps, eeps, spe, grow, speg, cprice, fv, agr,
    warn, hfe, bfu, vp⟩ := r
  dsimp only at hee hqq hgr0
  subst hee hqq hgr0
  unfold stepCompute at hg ⊢
  dsimp only at hg ⊢
  cases aeps with
  | none =>
    rw [if_pos (by simp [isFiniteO])] at hg
    exact absurd hg (by simp)
  | some av =>
    cases av with
    | nan =>
      rw [if_pos (by simp [isFiniteO, JsNum.isFinite])] at hg
      exact absurd hg (by simp)
    | inf =>
      rw [if_pos (by simp [isFiniteO, JsNum.isFinite])] at hg
      exact absurd hg (by simp)
    | ninf =>
      rw [if_pos (by simp [isFiniteO, JsNum.isFinite])] at hg
      exact absurd hg (by simp)
    | num a =>
      rw [if_neg (by simp [isFiniteO, JsNum.isFinite])] at hg ⊢
      dsimp only [jsToNum] at hg ⊢
      by_cases ha0 : a = 0
      · subst ha0
        rw [show (JsNum.num e).div (JsNum.num 0) = JsNum.inf by
          simp [JsNum.div, hepos, hepos.ne']] at hg ⊢
        rw [show JsNum.inf.sub (JsNum.num 1) = JsNum.inf by rfl] at hg ⊢
        cases sdpe with
        | some v =>
          dsimp only at hg
          rw [(finishValuation_preserves _).2.2.2.2.2.2.2.2.1] at hg
          dsimp only at hg
          simp only [Option.some.injEq] at hg
          rw [← hg] at hle
          exact absurd hle (by simp [JsNum.le])
        | none =>
          dsimp only at hg
          rw [if_neg (by simp [optTruthy, JsNum.truthy])] at hg
          dsimp only at hg
          simp only [Option.some.injEq] at hg
          rw [← hg] at hle
          exact absurd hle (by simp [JsNum.le])
      · rw [show (JsNum.num e).div (JsNum.num a) = JsNum.num (e / a) from
          num_div_num e ha0] at hg ⊢
        rw [num_sub_num] at hg ⊢
        cases sdpe with
        | some v =>
          dsimp only at hg ⊢
          rw [(finishValuation_preserves _).2.2.2.2.2.2.2.2.1] at hg
          dsimp only at hg
          simp only [Option.some.injEq] at hg
          rw [finishValuation_gate _ (by rw [← hg] at hle; simp [jsToNum, hle])]
          refine ⟨rfl, ?_, rfl⟩
          exact List.mem_append_right _ (by simp)
        | none =>
          dsimp only at hg ⊢
          rw [if_pos (by simp [optTruthy, JsNum.truthy, ha0, hqpos.ne'])] at hg ⊢
          rw [(finishValuation_preserves _).2.2.2.2.2.2.2.2.1] at hg
          dsimp only at hg
          simp only [Option.some.injEq] at hg
          rw [finishValuation_gate _ (by rw [← hg] at hle; simp [jsToNum, hle])]
          refine ⟨rfl, ?_, rfl⟩
          exact List.mem_append_right _ (by simp)

theorem calculateStockValuation_growth_gate {p : ValuationParams}
    {env : ValuationEnv} {g' : JsNum}
    (hg : (calculateStockValuation p env).growthRate = some g')
    (hle : g'.le (JsNum.num 0) = true) :
    (calculateStockValuation p env).valuationPossible = false ∧
    "Growth rate or PE is non-positive; PEG-based valuation not meaningful." ∈
      (calculateStockValuation p env).warnings ∧
    (calculateStockValuation p env).fairValue = none := by
  cases hsd : getStockData p.symbol env.stock with
  | error msg =>
    rw [calculateStockValuation_error_eq hsd] at hg
    exact absurd hg (by simp [marketBase, initResult])
  | ok sd =>
    obtain ⟨q, hq, hqpos, rfl⟩ := getStockData_ok_iff.mp hsd
    rw [calculateStockValuation_ok_eq hsd] at hg ⊢
    cases hkey : p.hasAlphaVantageKey with
    | false =>
      rw [stepAlpha_noKey hkey] at hg
      rw [stepCompute_none_est (by
        rw [(stepBetaFlag_preserves _ _).2.2.2.2.2.1]; try rfl)] at hg
      rw [show ({ stepBetaFlag (stockDataOf q env.stock)
            (stepCopyStock p (stockDataOf q env.stock)) with
          warnings := (stepBetaFlag (stockDataOf q env.stock)
            (stepCopyStock p (stockDataOf q env.stock))).warnings ++
            ["Missing or invalid EPS data; valuation cannot be completed. Finnhub free API may not provide detailed EPS estimates."]
          valuationPossible := false } : ValuationResult).growthRate =
          (stepBetaFlag (stockDataOf q env.stock)
            (stepCopyStock p (stockDataOf q env.stock))).growthRate from rfl,
        (stepBetaFlag_preserves _ _).2.2.2.2.2.2.1] at hg
      exact absurd hg (by simp [stepCopyStock, marketBase, initResult])
    | true =>
      cases halpha : getEstimatedEpsFromAlphaVantage env.alpha with
      | none =>
        rw [stepAlpha_notFound rfl hkey halpha] at hg
        rw [stepCompute_none_est (by
          rw [(stepBetaFlag_preserves _ _).2.2.2.2.2.1]; try rfl)] at hg
        rw [show ({ stepBetaFlag (stockDataOf q env.stock)
              (stepCopyStock p (stockDataOf q env.stock)) with
            warnings := (stepBetaFlag (stockDataOf q env.stock)
              (stepCopyStock p (stockDataOf q env.stock))).warnings ++
              ["Missing or invalid EPS data; valuation cannot be completed. Finnhub free API may not provide detailed EPS estimates."]
            valuationPossible := false } : ValuationResult).growthRate =
            (stepBetaFlag (stockDataOf q env.stock)
              (stepCopyStock p (stockDataOf q env.stock))).growthRate from rfl,
          (stepBetaFlag_preserves _ _).2.2.2.2.2.2.1] at hg
        exact absurd hg (by simp [stepCopyStock, marketBase, initResult])
      | some epsper =>
        obtain ⟨eps, per⟩ := epsper
        obtain ⟨e, rfl, hepos⟩ := getEstimatedEps_pos halpha
        rw [stepAlpha_found rfl hkey halpha] at hg ⊢
        obtain ⟨hvp, hmem, hfv⟩ := stepCompute_growth_gate
          (by rw [(stepBetaFlag_preserves _ _).2.2.2.2.2.2.1]; try rfl)
          ⟨e, by rw [(stepBetaFlag_preserves _ _).2.2.2.2.2.1]; try rfl, hepos⟩
          ⟨q, by rw [(stepBetaFlag_preserves _ _).2.2.2.1]; try rfl, hqpos⟩
          hg hle
        refine ⟨hvp, hmem, ?_⟩
        rw [hfv]
        rw [(stepBetaFlag_preserves _ _).2.2.2.2.2.2.2.1]
        try rfl

theorem epsFallback_noDB {a : Option JsNum} {fr : Except String (Option Filing)}
    (hfin : ∀ msg, fr = .error msg →
      jsIncludes ("Could not fetch financials: " ++ msg) "default beta" = false) :
    ((epsFallback a fr).2.any fun w => jsIncludes w "default beta") = false := by
  cases fr with
  | error msg => simp [epsFallback, hfin msg rfl]
  | ok o =>
    cases o with
    | none => simp [epsFallback]
    | some filing =>
      obtain ⟨repOpt⟩ := filing
      unfold epsFallback
      dsimp only
      cases repOpt with
      | none => simp
      | some rep =>
        obtain ⟨icOpt⟩ := rep
        dsimp only
        cases icOpt with
        | none => simp
        | some ic =>
          obtain ⟨niOpt⟩ := ic
          dsimp only
          cases niOpt with
          | none => simp
          | some v =>
            dsimp only
            split
            · split
              · simp only [List.any_cons, List.any_nil, Bool.or_false]
                decide
              · simp
            · simp

theorem acceptedSome_metricsWarnings {resp : Except String (Option Metrics)}
    {bv : JsNum} (h : acceptedProviderBeta resp = some bv) :
    (getMetricsOut resp).warnings = [] := by
  cases resp with
  | error msg => exact absurd h (by simp [acceptedProviderBeta])
  | ok o =>
    cases o with
    | none => exact absurd h (by simp [acceptedProviderBeta])
    | some mt =>
      unfold acceptedProviderBeta at h
      dsimp only at h
      unfold getMetricsOut processMetrics
      dsimp only
      cases hb : mt.beta with
      | none => rw [hb] at h
      | some v =>
        try rw [hb] at h
        try dsimp only at h
        try rw [hb]
        dsimp only
        by_cases hc : (v.truthy && v.isFinite && !v.lt (JsNum.num 0)) = true
        · simp only [Bool.and_eq_true] at hc
          obtain ⟨⟨hT, hF⟩, hL⟩ := hc
          have hlt : v.lt (JsNum.num 0) = false := by
            cases hLT : v.lt (JsNum.num 0)
            · rfl
            · rw [hLT] at hL; simp at hL
          rw [if_pos hT, if_neg (by simp [hF, hlt])]
        · rw [if_neg hc] at h
          exact absurd h (by simp)

theorem stockDataOf_beta_detail (q : ℚ) (env : StockDataEnv)
    (hfin : ∀ msg, env.financialsResp = .error msg →
      jsIncludes ("Could not fetch financials: " ++ msg) "default beta" = false) :
    (∀ bv, acceptedProviderBeta env.metricsResp = some bv →
      (stockDataOf q env).beta = bv ∧
      ((stockDataOf q env).warnings.any fun w => jsIncludes w "default beta") = false) ∧
    (acceptedProviderBeta env.metricsResp = none →
      (stockDataOf q env).beta = JsNum.num 1 ∧
      "Beta value unavailable; using default beta = 1.0" ∈ (stockDataOf q env).warnings ∧
      ((stockDataOf q env).warnings.any fun w => jsIncludes w "default beta") = true) := by
  constructor
  · intro bv hacc
    have hbeq : (getMetricsOut env.metricsResp).beta = some bv :=
      (getMetricsOut_beta_eq env.metricsResp).trans hacc
    have hmw : (getMetricsOut env.metricsResp).warnings = [] :=
      acceptedSome_metricsWarnings hacc
    constructor
    · unfold stockDataOf
      dsimp only
      rw [hbeq]
    · unfold stockDataOf
      dsimp only
      rw [hbeq, hmw]
      simp only [List.nil_append, List.any_append, List.any_nil, Bool.or_false]
      split
      · exact epsFallback_noDB hfin
      · simp
  · intro hacc
    have hbeq : (getMetricsOut env.metricsResp).beta = none :=
      (getMetricsOut_beta_eq env.metricsResp).trans hacc
    refine ⟨?_, ?_, ?_⟩
    · unfold stockDataOf
      dsimp only
      rw [hbeq]
    · unfold stockDataOf
      dsimp only
      rw [hbeq]
      simp
    · unfold stockDataOf
      dsimp only
      rw [hbeq]
      simp only [List.any_append]
      have : (["Beta value unavailable; using default beta = 1.0"].any
          fun w => jsIncludes w "default beta") = true := by decide
      rw [this]
      simp

theorem calculateStockValuation_beta {p : ValuationParams} {env : ValuationEnv}
    {sd : StockData} (hok : getStockData p.symbol env.stock = .ok sd)
    (hfin : ∀ msg, env.stock.financialsResp = .error msg →
      jsIncludes ("Could not fetch financials: " ++ msg) "default beta" = false) :
    (∀ bv, acceptedProviderBeta env.stock.metricsResp = some bv →
      (calculateStockValuation p env).beta = some bv ∧
      (calculateStockValuation p env).betaFallbackUsed = false) ∧
    (acceptedProviderBeta env.stock.metricsResp = none →
      (calculateStockValuation p env).beta = some (JsNum.num 1) ∧
      (calculateStockValuation p env).betaFallbackUsed = true ∧
      "Beta value unavailable; using default beta = 1.0" ∈
        (calculateStockValuation p env).warnings) := by
  obtain ⟨q, hq, hqpos, rfl⟩ := getStockData_ok_iff.mp hok
  rw [calculateStockValuation_ok_eq hok]
  obtain ⟨hdetail1, hdetail2⟩ := stockDataOf_beta_detail q env.stock hfin
  have hbeta : (stepCompute (stockDataOf q env.stock)
      (stepBetaFlag (stockDataOf q env.stock)
        (stepAlpha p env.alpha (stepCopyStock p (stockDataOf q env.stock))))).beta =
      some (stockDataOf q env.stock).beta := by
    rw [(stepCompute_preserves _ _).1, (stepBetaFlag_preserves _ _).1,
      (stepAlpha_preserves _ _ _).1]
    rfl
  have hbfu : (stepCompute (stockDataOf q env.stock)
      (stepBetaFlag (stockDataOf q env.stock)
        (stepAlpha p env.alpha (stepCopyStock p (stockDataOf q env.stock))))).betaFallbackUsed =
      ((decide ((stockDataOf q env.stock).beta ≠ JsNum.num 1) ||
        (stockDataOf q env.stock).warnings.any fun w => jsIncludes w "default") &&
        (stockDataOf q env.stock).warnings.any fun w => jsIncludes w "default beta") := by
    rw [(stepCompute_preserves _ _).2.1, stepBetaFlag_bfu,
      (stepAlpha_preserves _ _ _).2.1]
    rw [show (stepCopyStock p (stockDataOf q env.stock)).betaFallbackUsed = false from
      rfl]
    rw [Bool.or_false]
  constructor
  · intro bv hacc
    obtain ⟨hb1, hb2⟩ := hdetail1 bv hacc
    constructor
    · rw [hbeta, hb1]
    · rw [hbfu, hb2, Bool.and_false]
  · intro hacc
    obtain ⟨hb1, hmem, hb3⟩ := hdetail2 hacc
    refine ⟨by rw [hbeta, hb1], ?_, ?_⟩
    · rw [hbfu, hb3, Bool.and_true, hb1]
      have hany : ((stockDataOf q env.stock).warnings.any
          fun w => jsIncludes w "default") = true :=
        List.any_eq_true.mpr ⟨_, hmem, by decide⟩
      rw [hany, Bool.or_true]
    · have m0 : "Beta value unavailable; using default beta = 1.0" ∈
          (stepCopyStock p (stockDataOf q env.stock)).warnings := by
        unfold stepCopyStock
        dsimp only
        exact List.mem_append_right _ hmem
      obtain ⟨t1, ht1⟩ := stepAlpha_warnings p env.alpha
        (stepCopyStock p (stockDataOf q env.stock))
      have m1 : "Beta value unavailable; using default beta = 1.0" ∈
          (stepAlpha p env.alpha (stepCopyStock p (stockDataOf q env.stock))).warnings := by
        rw [ht1]
        exact List.mem_append_left _ m0
      have m2 : "Beta value unavailable; using default beta = 1.0" ∈
          (stepBetaFlag (stockDataOf q env.stock)
            (stepAlpha p env.alpha (stepCopyStock p (stockDataOf q env.stock)))).warnings := by
        rw [(stepBetaFlag_preserves _ _).2.2.2.2.2.2.2.2.1]
        exact m1
      obtain ⟨t2, ht2⟩ := stepCompute_warnings (stockDataOf q env.stock)
        (stepBetaFlag (stockDataOf q env.stock)
          (stepAlpha p env.alpha (stepCopyStock p (stockDataOf q env.stock))))
      rw [ht2]
      exact List.mem_append_left _ m2

/-- C1: whenever `calculateStockValuation` reports `valuationPossible = true`,
the result carries a present `fairValue`, a positive `stockPeg`, a present
`marketPeg`, a positive `growthRate` and a positive `stockPe`; whenever it
reports `valuationPossible = false`, `fairValue` is `null` — never a stale or
partial number. -/
theorem c1_valuation_possible_invariants (p : ValuationParams) (env : ValuationEnv) :
    ((calculateStockValuation p env).valuationPossible = true →
      (calculateStockValuation p env).fairValue ≠ none ∧
      (∃ s : ℚ, (calculateStockValuation p env).stockPeg = some (JsNum.num s) ∧ 0 < s) ∧
      (calculateStockValuation p env).marketPeg ≠ none ∧
      (∃ g : ℚ, (calculateStockValuation p env).growthRate = some (JsNum.num g) ∧ 0 < g) ∧
      (∃ t : ℚ, (calculateStockValuation p env).stockPe = some (JsNum.num t) ∧ 0 < t)) ∧
    ((calculateStockValuation p env).valuationPossible = false →
      (calculateStockValuation p env).fairValue = none) := by
  constructor
  · intro h
    obtain ⟨pr, b, e, a, g, pe, W, bfu, heq, hpr, hb, he, ha, hg, hgeq, hpe, hpeg⟩ :=
      calculateStockValuation_success h
    rw [heq]
    exact ⟨by simp, ⟨pe / (g * 100), rfl, hpeg⟩, by simp, ⟨g, rfl, hg⟩, ⟨pe, rfl, hpe⟩⟩
  · exact calculateStockValuation_false_fairValue

/-- Witness for C1 at concrete environments: a successful valuation has a
present fair value, and a failed one has none. -/
theorem c1_witness :
    (calculateStockValuation pW envOk).valuationPossible = true ∧
    (calculateStockValuation pW envOk).fairValue ≠ none ∧
    (calculateStockValuation pBad envFail).valuationPossible = false ∧
    (calculateStockValuation pBad envFail).fairValue = none :=
  ⟨by with_unfolding_all rfl,
   ((c1_valuation_possible_invariants pW envOk).1 (by with_unfolding_all rfl)).1,
   by with_unfolding_all rfl,
   (c1_valuation_possible_invariants pBad envFail).2 (by with_unfolding_all rfl)⟩

/-- C2: `calculateStockValuation` is total by construction (it returns a
`ValuationResult` for every input and provider behaviour); when the price
fetch fails or throws — the only statement in the guarded body that can
throw — the result has `valuationPossible = false` and a warning carrying
the error text, and no fair value. -/
theorem c2_fatal_errors_degrade (p : ValuationParams) (env : ValuationEnv)
    (msg : String) (h : getStockData p.symbol env.stock = .error msg) :
    (calculateStockValuation p env).valuationPossible = false ∧
    ("Error during calculation: " ++ msg) ∈ (calculateStockValuation p env).warnings ∧
    (calculateStockValuation p env).fairValue = none := by
  rw [calculateStockValuation_error_eq h]
  exact ⟨rfl, by simp [marketBase, initResult], rfl⟩

/-- Witness for C2: a failed quote fetch for `BADSYM` degrades into
`valuationPossible = false` with the wrapped error text as a warning. -/
theorem c2_witness :
    (calculateStockValuation pBad envFail).valuationPossible = false ∧
    ("Error during calculation: " ++
      "Failed to get quote for BADSYM: Finnhub API call failed: API returned status 500") ∈
      (calculateStockValuation pBad envFail).warnings ∧
    (calculateStockValuation pBad envFail).fairValue = none :=
  c2_fatal_errors_degrade pBad envFail
    "Failed to get quote for BADSYM: Finnhub API call failed: API returned status 500"
    (by with_unfolding_all rfl)

/-- C3: whenever `valuationPossible = true`, the fair value equals
`currentPrice × (marketPeg + (beta − 1) × 0.7 × marketPeg) / stockPeg`,
with `0.7` the fixed damping coefficient. -/
theorem c3_fair_value_formula (p : ValuationParams) (env : ValuationEnv)
    (h : (calculateStockValuation p env).valuationPossible = true) :
    (calculateStockValuation p env).fairValue =
      some (((jsToNum (calculateStockValuation p env).currentPrice).mul
        ((jsToNum (calculateStockValuation p env).marketPeg).add
          ((((jsToNum (calculateStockValuation p env).beta).sub (JsNum.num 1)).mul
            (JsNum.num (7/10))).mul
            (jsToNum (calculateStockValuation p env).marketPeg)))).div
        (jsToNum (calculateStockValuation p env).stockPeg)) := by
  obtain ⟨pr, b, e, a, g, pe, W, bfu, heq, hpr, hb, he, ha, hg, hgeq, hpe, hpeg⟩ :=
    calculateStockValuation_success h
  rw [heq]
  dsimp only [jsToNum]
  simp only [num_sub_num, num_mul_num, num_add_num]
  rw [num_div_num _ (ne_of_gt hpeg), mul_div_assoc]

/-- Witness for C3 at a concrete successful valuation. -/
theorem c3_witness :
    (calculateStockValuation pW envOk).fairValue =
      some (((jsToNum (calculateStockValuation pW envOk).currentPrice).mul
        ((jsToNum (calculateStockValuation pW envOk).marketPeg).add
          ((((jsToNum (calculateStockValuation pW envOk).beta).sub (JsNum.num 1)).mul
            (JsNum.num (7/10))).mul
            (jsToNum (calculateStockValuation pW envOk).marketPeg)))).div
        (jsToNum (calculateStockValuation pW envOk).stockPeg)) :=
  c3_fair_value_formula pW envOk (by with_unfolding_all rfl)

/-- C4 (code bug): the shipped code hardcodes `marketPe = 29` and
`marketPeg = 29 / 13.5` (lines 266–267; the `getMarketPe` call and the
division by the request parameter `marketGrowthRatePercent` are commented out), so
with the default `marketGrowthRatePercent = 10` the resulting `marketPeg` is
`58/27 ≈ 2.148`, not `marketPe / 10 = 2.9` as the contract requires. -/
theorem c4_market_peg_hardcoded :
    (calculateStockValuation pW envOk).assumedMarketGrowthRatePercent = JsNum.num 10 ∧
    (calculateStockValuation pW envOk).marketPe = some (JsNum.num 29) ∧
    (calculateStockValuation pW envOk).marketPeg = some (JsNum.num (58/27)) ∧
    (JsNum.num 29).div (JsNum.num 10) = JsNum.num (29/10) ∧
    JsNum.num ((58:ℚ)/27) ≠ JsNum.num ((29:ℚ)/10) := by
  with_unfolding_all decide

/-- C5: if the resulting trailing and estimated EPS are both finite numbers
and the estimate does not exceed the trailing figure, the valuation is
impossible and the fair value absent. -/
theorem c5_estimate_not_above_actual (p : ValuationParams) (env : ValuationEnv)
    (_hfa : isFiniteO (calculateStockValuation p env).actualEps = true)
    (_hfe : isFiniteO (calculateStockValuation p env).estimatedEps = true)
    (hle : (jsToNum (calculateStockValuation p env).estimatedEps).le
      (jsToNum (calculateStockValuation p env).actualEps) = true) :
    (calculateStockValuation p env).valuationPossible = false ∧
    (calculateStockValuation p env).fairValue = none := by
  cases hvp : (calculateStockValuation p env).valuationPossible with
  | false => exact ⟨rfl, calculateStockValuation_false_fairValue hvp⟩
  | true =>
    exfalso
    obtain ⟨pr, b, e, a, g, pe, W, bfu, heq, hpr, hb, he, ha, hg, hgeq, hpe, hpeg⟩ :=
      calculateStockValuation_success hvp
    rw [heq] at hle
    dsimp only [jsToNum] at hle
    rw [num_le_num] at hle
    have hea : e ≤ a := of_decide_eq_true hle
    have hapos : 0 < a := lt_of_lt_of_le he hea
    have hg0 : g ≤ 0 := by
      rw [hgeq]
      have hdiv : e / a ≤ 1 := by
        rw [div_le_one hapos]
        exact hea
      linarith
    linarith

/-- Witness for C5: shrinking earnings (estimate 1 vs trailing 2) make the
valuation impossible. -/
theorem c5_witness :
    (calculateStockValuation pW envNeg).valuationPossible = false ∧
    (calculateStockValuation pW envNeg).fairValue = none :=
  c5_estimate_not_above_actual pW envNeg (by with_unfolding_all rfl)
    (by with_unfolding_all rfl) (by with_unfolding_all rfl)

/-- C6 (counterexample): with shrinking earnings (estimate 1 against trailing
2, growth −0.5 ≤ 0) and no provider PE, the derived-PE warning IS emitted
before the non-positive-growth stop, refuting the claim that no derived-PE
warning appears for such inputs. -/
theorem c6_counterexample :
    isFiniteO (calculateStockValuation pW envNeg).actualEps = true ∧
    isFiniteO (calculateStockValuation pW envNeg).estimatedEps = true ∧
    (calculateStockValuation pW envNeg).growthRate = some (JsNum.num (-1/2)) ∧
    (JsNum.num (-1/2)).le (JsNum.num 0) = true ∧
    "PE calculated from price / actualEps (not from API)." ∈
      (calculateStockValuation pW envNeg).warnings := by
  with_unfolding_all decide

/-- C6 (amended): when the computed growth rate is not greater than 0, the
valuation stops with the non-positive warning and no fair value — but this
stop happens at the combined gate after stock PE resolution, so a derived-PE
warning may additionally have been emitted. -/
theorem c6_growth_gate_after_pe (p : ValuationParams) (env : ValuationEnv)
    (g' : JsNum)
    (hg : (calculateStockValuation p env).growthRate = some g')
    (hle : g'.le (JsNum.num 0) = true) :
    (calculateStockValuation p env).valuationPossible = false ∧
    "Growth rate or PE is non-positive; PEG-based valuation not meaningful." ∈
      (calculateStockValuation p env).warnings ∧
    (calculateStockValuation p env).fairValue = none :=
  calculateStockValuation_growth_gate hg hle

/-- Witness for the amended C6 at the shrinking-earnings environment. -/
theorem c6_witness :
    (calculateStockValuation pW envNeg).valuationPossible = false ∧
    "Growth rate or PE is non-positive; PEG-based valuation not meaningful." ∈
      (calculateStockValuation pW envNeg).warnings ∧
    (calculateStockValuation pW envNeg).fairValue = none :=
  c6_growth_gate_after_pe pW envNeg (JsNum.num (-1/2))
    (by with_unfolding_all rfl) (by with_unfolding_all rfl)

/-- C7 (counterexample): a provider beta of exactly `0` — present, finite and
non-negative — is nonetheless replaced by the default `1.0` with
`betaFallbackUsed = true`, because the code gates on JS truthiness of the
raw field. -/
theorem c7_counterexample :
    envBeta0.stock.metricsResp =
      .ok (some { mEmpty with
        epsTTM := some (JsNum.num 2)
        peTTM := some (JsNum.num 15)
        beta := some (JsNum.num 0) }) ∧
    (JsNum.num 0).isFinite = true ∧
    (JsNum.num 0).lt (JsNum.num 0) = false ∧
    (calculateStockValuation pW envBeta0).beta = some (JsNum.num 1) ∧
    (calculateStockValuation pW envBeta0).beta ≠ some (JsNum.num 0) ∧
    (calculateStockValuation pW envBeta0).betaFallbackUsed = true := by
  with_unfolding_all decide

/-- C7 (amended): on a successful stock-data fetch, the resulting beta is the
provider value exactly when that value is present, truthy, finite and
non-negative (with `betaFallbackUsed = false`), and otherwise is `1.0` with
a warning and `betaFallbackUsed = true`; side condition: the financials
fetch error text does not contain the marker substring `default beta`. -/
theorem c7_beta_resolution (p : ValuationParams) (env : ValuationEnv)
    (sd : StockData) (hok : getStockData p.symbol env.stock = .ok sd)
    (hfin : ∀ msg, env.stock.financialsResp = .error msg →
      jsIncludes ("Could not fetch financials: " ++ msg) "default beta" = false) :
    (∀ bv, acceptedProviderBeta env.stock.metricsResp = some bv →
      (calculateStockValuation p env).beta = some bv ∧
      (calculateStockValuation p env).betaFallbackUsed = false) ∧
    (acceptedProviderBeta env.stock.metricsResp = none →
      (calculateStockValuation p env).beta = some (JsNum.num 1) ∧
      (calculateStockValuation p env).betaFallbackUsed = true ∧
      "Beta value unavailable; using default beta = 1.0" ∈
        (calculateStockValuation p env).warnings) :=
  calculateStockValuation_beta hok hfin

/-- Witness for the amended C7: an accepted beta of 1.2 is used, and the
falsy beta `0` falls back to the default with the flag set. -/
theorem c7_witness :
    ((calculateStockValuation pW envOk).beta = some (JsNum.num (6/5)) ∧
     (calculateStockValuation pW envOk).betaFallbackUsed = false) ∧
    ((calculateStockValuation pW envBeta0).beta = some (JsNum.num 1) ∧
     (calculateStockValuation pW envBeta0).betaFallbackUsed = true) := by
  constructor
  · exact (c7_beta_resolution pW envOk
      ⟨JsNum.num (6/5), some (JsNum.num 2), none, JsNum.num 10, some (JsNum.num 15), []⟩
      (by with_unfolding_all rfl)
      (fun msg h => by simp [envOk] at h)).1
      (JsNum.num (6/5)) (by with_unfolding_all rfl)
  · obtain ⟨h1, h2, h3⟩ := (c7_beta_resolution pW envBeta0
      ⟨JsNum.num 1, some (JsNum.num 2), none, JsNum.num 10, some (JsNum.num 15),
        ["Beta value unavailable; using default beta = 1.0"]⟩
      (by with_unfolding_all rfl)
      (fun msg h => by simp [envBeta0] at h)).2 (by with_unfolding_all rfl)
    exact ⟨h1, h2⟩

/-- C8: `getEstimatedEpsFromAlphaVantage` never raises — every outcome is a
plain value: `none` on a fetch failure or an absent `estimates` array, and
otherwise the first record in order whose date and average estimate are
present with a finite positive parsed value, as an (eps, period) pair. -/
theorem c8_alpha_estimate_scan (resp : Except String (Option (List AlphaEstimate))) :
    (∀ msg, resp = .error msg → getEstimatedEpsFromAlphaVantage resp = none) ∧
    (resp = .ok none → getEstimatedEpsFromAlphaVantage resp = none) ∧
    (∀ ests, resp = .ok (some ests) →
      getEstimatedEpsFromAlphaVantage resp =
        (ests.find? estimateQualifies).map
          (fun est => (est.eps_estimate_average.getD JsNum.nan, est.date.getD ""))) := by
  refine ⟨?_, ?_, ?_⟩
  · rintro msg rfl; rfl
  · rintro rfl; rfl
  · rintro ests rfl
    unfold getEstimatedEpsFromAlphaVantage
    dsimp only
    by_cases hl : ests.length > 0
    · rw [if_pos hl]
      exact findEstimate_eq_find ests
    · rw [if_neg hl]
      have hnil : ests = [] := List.length_eq_zero.mp (by omega)
      subst hnil
      simp

/-- Witness for C8: a record with a non-positive estimate is skipped and the
next qualifying record is returned. -/
theorem c8_witness :
    getEstimatedEpsFromAlphaVantage (.ok (some
      [⟨some "2024-12", some (JsNum.num 0)⟩, ⟨some "2025-12", some (JsNum.num 4)⟩])) =
      (([⟨some "2024-12", some (JsNum.num 0)⟩,
         ⟨some "2025-12", some (JsNum.num 4)⟩] : List AlphaEstimate).find?
          estimateQualifies).map
        (fun est => (est.eps_estimate_average.getD JsNum.nan, est.date.getD "")) ∧
    getEstimatedEpsFromAlphaVantage (.ok (some
      [⟨some "2024-12", some (JsNum.num 0)⟩, ⟨some "2025-12", some (JsNum.num 4)⟩])) =
      some (JsNum.num 4, "2025-12") :=
  ⟨(c8_alpha_estimate_scan _).2.2 _ rfl, by with_unfolding_all rfl⟩

/-- C9 (counterexample): in a batch where the price fetch for `BADSYM` fails, the
failing item is a full valuation result with `valuationPossible = false` —
not the compact `{symbol, error, valuationPossible:false}` object the claim
describes (the batch `.catch` handler never fires because
`calculateStockValuation` catches its own errors). -/
theorem c9_counterexample :
    batchValuation [(pW, envOk), (pBad, envFail)] =
      [BatchItem.full (calculateStockValuation pW envOk),
       BatchItem.full (calculateStockValuation pBad envFail)] ∧
    (calculateStockValuation pBad envFail).valuationPossible = false ∧
    BatchItem.isErrorItem (BatchItem.full (calculateStockValuation pBad envFail)) =
      false := by
  exact ⟨rfl, by with_unfolding_all rfl, rfl⟩

/-- C9 (amended): batch valuation is a pointwise map, so a fatal per-item
fetch failure never aborts or alters the other items; the failing item is the
full valuation result with `valuationPossible = false` and a warning
carrying the error text. -/
theorem c9_batch_isolation (l1 l2 : List (ValuationParams × ValuationEnv))
    (x : ValuationParams × ValuationEnv) :
    batchValuation (l1 ++ x :: l2) =
      batchValuation l1 ++ runBatchItem x.1 x.2 :: batchValuation l2 ∧
    (∀ msg, getStockData x.1.symbol x.2.stock = .error msg →
      runBatchItem x.1 x.2 = BatchItem.full (calculateStockValuation x.1 x.2) ∧
      (calculateStockValuation x.1 x.2).valuationPossible = false ∧
      ("Error during calculation: " ++ msg) ∈
        (calculateStockValuation x.1 x.2).warnings) := by
  constructor
  · unfold batchValuation
    simp
  · intro msg hmsg
    refine ⟨rfl, ?_, ?_⟩
    · rw [calculateStockValuation_error_eq hmsg]
    · rw [calculateStockValuation_error_eq hmsg]
      simp [marketBase, initResult]

/-- Witness for the amended C9 at a concrete two-element batch. -/
theorem c9_witness :
    batchValuation ([(pW, envOk)] ++ (pBad, envFail) :: []) =
      batchValuation [(pW, envOk)] ++
        runBatchItem pBad envFail :: batchValuation [] ∧
    (calculateStockValuation pBad envFail).valuationPossible = false :=
  ⟨(c9_batch_isolation [(pW, envOk)] [] (pBad, envFail)).1,
   ((c9_batch_isolation [(pW, envOk)] [] (pBad, envFail)).2
     "Failed to get quote for BADSYM: Finnhub API call failed: API returned status 500"
     (by with_unfolding_all rfl)).2.1⟩

/-- C10: a trailing EPS of exactly `0` passes the finiteness validation but
is falsy, so the net-income fallback is consulted: the resulting
`actualEps` is the filing's net income when that value is truthy, finite
and non-zero (with the derived-EPS warning), and a net income of exactly
`0` is never accepted — `actualEps` stays `0` from the metrics. -/
theorem c10_zero_eps_net_income_fallback (s : String) (n : JsNum) :
    getStockData s (stockEnvEpsZero n) = .ok
      { beta := JsNum.num 1
        actualEps :=
          if n.truthy && (n.isFinite && decide (n ≠ JsNum.num 0)) then some n
          else some (JsNum.num 0)
        estimatedEps := none
        price := JsNum.num 10
        pe := none
        warnings :=
          (if n.truthy && (n.isFinite && decide (n ≠ JsNum.num 0)) then
            ["Actual EPS derived from reported net income (not per share basis)."]
          else []) ++
          ["Beta value unavailable; using default beta = 1.0"] } := by
  cases n with
  | nan => with_unfolding_all rfl
  | inf => with_unfolding_all rfl
  | ninf => with_unfolding_all rfl
  | num qn =>
    by_cases hq : qn = 0
    · subst hq
      with_unfolding_all rfl
    · refine getStockData_ok_iff.mpr ⟨10, rfl, by norm_num, ?_⟩
      unfold stockDataOf stockEnvEpsZero getMetricsOut processMetrics epsFallback
      dsimp only
      simp [mEmpty, optTruthy, JsNum.truthy, isFiniteO, JsNum.isFinite, jsToNum,
        JsNum.le, hq]
